import Mathlib

set_option maxRecDepth 100000

/-!
Verification development for the `emvsign` EMV terminal tool.

The development shallowly embeds the Rust sources (`src/tlv/*`, `src/exchange.rs`,
`src/pse.rs`, `src/crypto/chain.rs`) into Lean: bytes are `Nat` values (< 256
wherever the source guarantees `u8`), byte strings are `List Nat`, the 2048-bit
`U2048` integers are `Nat` with explicit reductions modulo `2 ^ 2048` where the
source type truncates, and fallible Rust functions returning `Result`/`Option`
become `Except`/`Option`.  Static tables (`CA_KEYS`, `ELEMENTS`) and the card
reader are passed as explicit function parameters, mirroring the source's use of
process-global statics and the `pcsc` transmit primitive.
-/

namespace Emvsign

/-- Big-endian interpretation of a byte string as a natural number.  This is the
semantics of `crypto_bigint::U2048::from_be_slice` on the zero-padded 256-byte
array built by `certificate_to_bigint` (src/crypto/chain.rs lines 22-25), and of
`usize::from_be_bytes(left_pad_slice(..))` in the TLV decoder. -/
def beNat (bs : List Nat) : Nat := bs.foldl (fun a b => a * 256 + b) 0

/-- Big-endian serialization of `n` into exactly `k` bytes (low `8 * k` bits),
the semantics of `to_be_bytes` on a `k`-byte integer type. -/
def natToBe : Nat → Nat → List Nat
  | 0, _ => []
  | k + 1, n => natToBe k (n / 256) ++ [n % 256]

/-- Byte at index `i`, with 0 for out of range.  Rust's slice indexing panics out
of range; every theorem below only uses this inside the in-range regime the
source reaches. -/
def byteAt (l : List Nat) (i : Nat) : Nat := l.getD i 0

/-- The slice `l[a..b]` of a byte string (empty when out of range, where Rust
would panic; all uses below stay in range). -/
def byteSlice (l : List Nat) (a b : Nat) : List Nat := (l.drop a).take (b - a)

/-- The halving recursion computing a bit length, fuelled so that it is
structurally recursive (any fuel of at least `log2 n + 1` gives the bit
length). -/
def bitsLenGo : Nat → Nat → Nat
  | 0, _ => 0
  | fuel + 1, n => if n = 0 then 0 else bitsLenGo fuel (n / 2) + 1

/-- Bit length of a natural number, the semantics of
`crypto_bigint::Uint::bits_vartime` (0 for 0). -/
def bitsLen (n : Nat) : Nat := bitsLenGo n n

/-- Byte length of a modulus: `(modulus.bits_vartime() + 7) / 8`
(src/crypto/chain.rs lines 79 and 188). -/
def modBytes (m : Nat) : Nat := (bitsLen m + 7) / 8

/-- `U2048` left shift: the `crypto_bigint` shift truncates to 2048 bits. -/
def u2048shl (a n : Nat) : Nat := (a <<< n) % 2 ^ 2048

/-! ### SHA-1 (the `sha1` crate dependency of src/crypto/chain.rs)

A byte-level implementation of FIPS 180 SHA-1 over `List Nat`, used by the
embedding of certificate verification exactly where the source calls
`Sha1::new()/update/finalize`. -/

/-- Rotate a 32-bit word left by `n` bits. -/
def rotl (n x : Nat) : Nat := ((x <<< n) ||| (x >>> (32 - n))) % 4294967296

/-- SHA-1 round function for round `t`. -/
def sha1F (t b c d : Nat) : Nat :=
  if t < 20 then (b &&& c) ||| ((b ^^^ 0xffffffff) &&& d)
  else if t < 40 then b ^^^ c ^^^ d
  else if t < 60 then (b &&& c) ||| (b &&& d) ||| (c &&& d)
  else b ^^^ c ^^^ d

/-- SHA-1 round constant for round `t`. -/
def sha1K (t : Nat) : Nat :=
  if t < 20 then 0x5a827999
  else if t < 40 then 0x6ed9eba1
  else if t < 60 then 0x8f1bbcdc
  else 0xca62c1d6

/-- Group a byte string into big-endian 32-bit words (incomplete tail dropped;
inputs are always a multiple of 4 bytes). -/
def bytesToWords : List Nat → List Nat
  | a :: b :: c :: d :: rest => (((a * 256 + b) * 256 + c) * 256 + d) :: bytesToWords rest
  | _ => []

/-- Big-endian bytes of a 32-bit word. -/
def wordToBytes (w : Nat) : List Nat :=
  [w / 16777216 % 256, w / 65536 % 256, w / 256 % 256, w % 256]

/-- The 80 SHA-1 rounds.  `ts` counts the rounds still to run, `pending` holds
unconsumed block words, `hist` the already-consumed schedule words most recent
first (so `hist.getD 2` is `w[t-3]`, `hist.getD 7` is `w[t-8]`, `hist.getD 13`
is `w[t-14]`, `hist.getD 15` is `w[t-16]`). -/
def sha1Go : List Nat → List Nat → List Nat → Nat × Nat × Nat × Nat × Nat →
    Nat × Nat × Nat × Nat × Nat
  | [], _, _, st => st
  | t :: ts, pending, hist, (a, b, c, d, e) =>
    let wt := match pending with
      | w :: _ => w
      | [] => rotl 1 ((hist.getD 2 0) ^^^ (hist.getD 7 0) ^^^ (hist.getD 13 0) ^^^ (hist.getD 15 0))
    let tmp := (rotl 5 a + sha1F t b c d + e + sha1K t + wt) % 4294967296
    sha1Go ts pending.tail (wt :: hist) (tmp, a, rotl 30 b, c, d)

/-- The block-splitting recursion, fuelled by the number of bytes so that it is
structurally recursive. -/
def chunk64Go : Nat → List Nat → List (List Nat)
  | _, [] => []
  | 0, _ => []
  | fuel + 1, a :: rest => (a :: rest).take 64 :: chunk64Go fuel (rest.drop 63)

/-- Split a (padded) byte string into 64-byte blocks. -/
def chunk64 (l : List Nat) : List (List Nat) := chunk64Go l.length l

/-- Merkle-Damgard padding: append `0x80`, zeros, and the 64-bit bit length. -/
def sha1Pad (msg : List Nat) : List Nat :=
  msg ++ 0x80 :: List.replicate ((55 + 64 - msg.length % 64) % 64) 0 ++ natToBe 8 (8 * msg.length)

/-- SHA-1 of a byte string, as 20 bytes. -/
def sha1 (msg : List Nat) : List Nat :=
  let fin := (chunk64 (sha1Pad msg)).foldl
    (fun h block =>
      let (a, b, c, d, e) := sha1Go (List.range 80) (bytesToWords block) [] h
      (((h.1 + a) % 4294967296, (h.2.1 + b) % 4294967296, (h.2.2.1 + c) % 4294967296,
        (h.2.2.2.1 + d) % 4294967296, (h.2.2.2.2 + e) % 4294967296)))
    (0x67452301, 0xefcdab89, 0x98badcfe, 0x10325476, 0xc3d2e1f0)
  wordToBytes fin.1 ++ wordToBytes fin.2.1 ++ wordToBytes fin.2.2.1 ++
    wordToBytes fin.2.2.2.1 ++ wordToBytes fin.2.2.2.2

/-! ### TLV data model (src/tlv/errors.rs, src/tlv/types.rs, src/tlv/dol.rs)

The snapshot's `types.rs` defines `Value` with `Template(FieldMap)` where
`pub type FieldMap = HashMap<u16, Value>` (annotated in the source itself with
"This will break if we have duplicates or order matters").  The `HashMap` is
modelled as an association list with unique keys whose `insert` overwrites the
existing binding for an already-present key, exactly the `HashMap` contract;
iteration order is never relied upon below. -/

/-- The charset kinds of `errors.rs` (`StringType`). -/
inductive StringType where
  | alphabetic
  | alphanumeric
  | alphanumericSpecial
deriving DecidableEq, Repr

/-- The TLV decode-error enumeration used by `src/tlv/decoders.rs` and
`src/tlv/types.rs` (`DecodeError`): `BadBcd`, `TemplateInternal`,
`LengthTooLong`, `MessageTooShort`, `UnsupportedChar`, `NoPathRequested`,
`WrongType`, `NoSuchMember`.  The boxed inner error of `TemplateInternal`
becomes a direct recursive occurrence. -/
inductive DecodeError where
  | badBcd (nibble : Nat)
  | templateInternal (tag : Nat) (inner : DecodeError)
  | lengthTooLong (maxLen got : Nat)
  | messageTooShort (needed got : Nat)
  | unsupportedChar (typ : StringType) (ch : Nat)
  | noPathRequested
  | wrongType (tag : Nat) (expected : String)
  | noSuchMember (tag : Nat)
deriving DecidableEq, Repr

/-- A Data Object List entry (`DOLEntry` of src/tlv/dol.rs): a tag and a size. -/
structure DOLEntry where
  tag : Nat
  size : Nat
deriving DecidableEq, Repr

/-- A Data Object List (`Dol` of src/tlv/dol.rs).  The source struct caches a
private `size` field; both constructors (`new_from_entries` and
`TryFrom<&[u8]>`) establish `size = Σ entry sizes` and the fields are private,
so the cache is modelled by the derived function `Dol.size` below. -/
structure Dol where
  entries : List DOLEntry
deriving DecidableEq, Repr

/-- The cached total size of a `Dol`: the sum of its entry sizes
(`new_from_entries`, src/tlv/dol.rs lines 18-21). -/
def Dol.size (d : Dol) : Nat := (d.entries.map DOLEntry.size).foldl (· + ·) 0

/-- The TLV value union (`Value` of src/tlv/types.rs).  Strings are modelled as
their byte lists; `Numeric(u128)` is modelled as `Nat` (the source's BCD
accumulation has an explicit `TODO handle overflow` and never exceeds 38
digits); `Template` holds the `HashMap`-backed field map, modelled as an
association list (see section comment). -/
inductive Value where
  | alphabetic (s : List Nat)
  | alphanumeric (s : List Nat)
  | alphanumericSpecial (s : List Nat)
  | binary (b : List Nat)
  | digitString (d : List Nat)
  | numeric (n : Nat)
  | template (m : List (Nat × Value))
  | dol (d : Dol)

/-- `FieldMap` (src/tlv/types.rs line 22): the `HashMap<u16, Value>` model. -/
abbrev FieldMap := List (Nat × Value)

/-- `HashMap::get`. -/
def FieldMap.get (m : FieldMap) (tag : Nat) : Option Value :=
  (m.find? (fun p => p.1 == tag)).map (·.2)

/-- `HashMap::contains_key`. -/
def FieldMap.containsKey (m : FieldMap) (tag : Nat) : Bool :=
  m.any (fun p => p.1 == tag)

/-- `HashMap::insert`: overwrite the binding when the key is present, otherwise
add a new one. -/
def FieldMap.insert (m : FieldMap) (tag : Nat) (v : Value) : FieldMap :=
  if m.any (fun p => p.1 == tag) then
    m.map (fun p => if p.1 == tag then (tag, v) else p)
  else m ++ [(tag, v)]

/-- `Value::as_binary` (src/tlv/types.rs). -/
def Value.asBinary : Value → Option (List Nat)
  | .binary b => some b
  | _ => none

/-- `Value::as_digit_string` (src/tlv/types.rs). -/
def Value.asDigitString : Value → Option (List Nat)
  | .digitString d => some d
  | _ => none

/-! ### TLV decoders (src/tlv/decoders.rs) -/

/-- The element-type tags of the data-element dictionary (`ElementType` of
src/tlv/elements.rs, in its `DigitString`/`Dol` form referenced by
src/tlv/decoders.rs `decode_with_type`). -/
inductive ElementType where
  | alphabetic
  | alphanumeric
  | alphanumericSpecial
  | binary
  | digitString
  | numeric
  | template
  | dol
deriving DecidableEq, Repr

/-- `read_tl` (src/tlv/decoders.rs lines 25-70): decode a BER-TLV tag/length
prefix, returning `(tag, length, prefix byte count)`. -/
def read_tl (raw : List Nat) : Except DecodeError (Nat × Nat × Nat) :=
  if raw.length = 0 then .error (.messageTooShort 2 raw.length)
  else
    let tag_len := if byteAt raw 0 &&& 0b11111 = 0b11111 then 2 else 1
    if raw.length < tag_len + 1 then .error (.messageTooShort (tag_len + 1) raw.length)
    else
      let tag_bytes := raw.take tag_len
      match raw.drop tag_len with
      | [] => .error (.messageTooShort (tag_len + 1) raw.length)
      | len_len_byte :: rest =>
        if len_len_byte &&& 0x80 = 0x80 then
          let num_bytes := len_len_byte &&& 0x7f
          if num_bytes > 4 then .error (.lengthTooLong 4 num_bytes)
          else if rest.length < num_bytes then
            .error (.messageTooShort (tag_len + 1 + num_bytes) raw.length)
          else .ok (beNat tag_bytes, beNat (rest.take num_bytes), tag_len + (num_bytes + 1))
        else .ok (beNat tag_bytes, len_len_byte, tag_len + 1)

/-- The nibbles of a byte string, high nibble first: the
`iter().flat_map(|byte| [byte >> 4, byte & 0x0f])` pattern of `numeric` and
`compressed_numeric`. -/
def bcdNibbles : List Nat → List Nat
  | [] => []
  | b :: bs => b / 16 :: b % 16 :: bcdNibbles bs

/-- The digit loop of `compressed_numeric`: take nibbles until `0xF`, failing on
the first nibble in `10..14`. -/
def compressed_numeric_go : List Nat → Except DecodeError (List Nat)
  | [] => .ok []
  | d :: ds =>
    if d = 0x0f then .ok []
    else if d < 10 then
      match compressed_numeric_go ds with
      | .error e => .error e
      | .ok s => .ok (d :: s)
    else .error (.badBcd d)

/-- `compressed_numeric` (src/tlv/decoders.rs lines 153-173): decode a packed
BCD digit string of at most 10 bytes into its digit sequence, stopping at the
first `0xF` nibble. -/
def compressed_numeric (raw : List Nat) : Except DecodeError (List Nat) :=
  if raw.length > 10 then .error (.lengthTooLong 10 raw.length)
  else compressed_numeric_go (bcdNibbles raw)

/-- The fold of `numeric`: accumulate decimal digits, failing on a nibble above 9. -/
def numericGo : Nat → List Nat → Except DecodeError Nat
  | acc, [] => .ok acc
  | acc, d :: ds => if d ≤ 9 then numericGo (acc * 10 + d) ds else .error (.badBcd d)

/-- `numeric` (src/tlv/decoders.rs lines 175-186): BCD to integer. -/
def numeric (raw : List Nat) : Except DecodeError Nat := numericGo 0 (bcdNibbles raw)

/-- `u8::is_ascii_alphabetic`. -/
def isAsciiAlphabetic (b : Nat) : Bool := (0x41 ≤ b ∧ b ≤ 0x5a) ∨ (0x61 ≤ b ∧ b ≤ 0x7a)

/-- `u8::is_ascii_alphanumeric`. -/
def isAsciiAlphanumeric (b : Nat) : Bool := isAsciiAlphabetic b ∨ (0x30 ≤ b ∧ b ≤ 0x39)

/-- `restricted_charset` (src/tlv/decoders.rs lines 103-113). -/
def restricted_charset (raw : List Nat) (ok : Nat → Bool) (st : StringType) :
    Except DecodeError (List Nat) :=
  match raw.find? (fun b => ¬ ok b) with
  | some bad => .error (.unsupportedChar st bad)
  | none => .ok raw

/-- `alphabetic` (src/tlv/decoders.rs). -/
def alphabetic (raw : List Nat) : Except DecodeError (List Nat) :=
  restricted_charset raw isAsciiAlphabetic .alphabetic

/-- `alphanumeric` (src/tlv/decoders.rs). -/
def alphanumeric (raw : List Nat) : Except DecodeError (List Nat) :=
  restricted_charset raw isAsciiAlphanumeric .alphanumeric

/-- `alphanumeric_special` (src/tlv/decoders.rs lines 127-147): reject bytes
below 0x20 and the byte 0x7F, accept everything else. -/
def alphanumeric_special (raw : List Nat) : Except DecodeError (List Nat) :=
  match raw.find? (fun b => b < 0x20 ∨ b = 0x7f) with
  | some bad => .error (.unsupportedChar .alphanumericSpecial bad)
  | none => .ok raw

/-- `binary` (src/tlv/decoders.rs lines 149-151). -/
def binary (raw : List Nat) : Except DecodeError (List Nat) := .ok raw

/-- The DOL entry loop of `TryFrom<&[u8]> for Dol` (src/tlv/dol.rs lines
111-129): repeatedly read tag/length prefixes.  The fuel argument only bounds
the recursion; every prefix consumes at least 2 bytes, so the wrapper's
`raw.length + 1` never runs out. -/
def dolDecodeGo : Nat → List Nat → Except DecodeError (List DOLEntry)
  | _, [] => .ok []
  | 0, raw => .error (.messageTooShort raw.length 0)
  | fuel + 1, raw =>
    match read_tl raw with
    | .error e => .error e
    | .ok (tag, size, tl_len) =>
      match dolDecodeGo fuel (raw.drop tl_len) with
      | .error e => .error e
      | .ok entries => .ok (⟨tag, size⟩ :: entries)

/-- `Dol::try_from` (src/tlv/dol.rs lines 111-129). -/
def dolDecode (raw : List Nat) : Except DecodeError Dol :=
  (dolDecodeGo (raw.length + 1) raw).map Dol.mk

mutual

/-- `decode_with_type` (src/tlv/decoders.rs lines 72-85): dispatch a value slice
on its dictionary type.  The `Template` arm produces the `HashMap`-backed
`FieldMap` of `types.rs` (see `templateMapGo`). -/
def decode_with_type (fuel : Nat) (elements : Nat → Option ElementType)
    (typ : ElementType) (raw : List Nat) : Except DecodeError Value :=
  match fuel with
  | 0 => .error (.messageTooShort raw.length 0)
  | fuel + 1 =>
    match typ with
    | .alphabetic => (alphabetic raw).map .alphabetic
    | .alphanumeric => (alphanumeric raw).map .alphanumeric
    | .alphanumericSpecial => (alphanumeric_special raw).map .alphanumericSpecial
    | .binary => (binary raw).map .binary
    | .digitString => (compressed_numeric raw).map .digitString
    | .numeric => (numeric raw).map .numeric
    | .template => (templateMapGo fuel elements [] raw).map .template
    | .dol => (dolDecode raw).map .dol

/-- `read_tlv` (src/tlv/decoders.rs lines 87-96): read a prefix, dispatch the
value slice on the dictionary type (defaulting to binary), wrapping inner errors
in `TemplateInternal`.  The static `ELEMENTS` dictionary is the `elements`
parameter. -/
def read_tlv (fuel : Nat) (elements : Nat → Option ElementType) (raw : List Nat) :
    Except DecodeError (Nat × Nat × Value) :=
  match fuel with
  | 0 => .error (.messageTooShort raw.length 0)
  | fuel + 1 =>
    match read_tl raw with
    | .error e => .error e
    | .ok (tag, len, tl_len) =>
      let typ := (elements tag).getD .binary
      match decode_with_type fuel elements typ ((raw.drop tl_len).take len) with
      | .error e => .error (.templateInternal tag e)
      | .ok v => .ok (tag, tl_len + len, v)

/-- The template decode loop building the `Template` value.  The snapshot's
`decoders.rs` maps the decoded field sequence into `Value::Template(FieldMap)`
with `FieldMap = HashMap<u16, Value>` (src/tlv/types.rs); the collection step
itself is the only part not present in the snapshot and is modelled as
successive `HashMap::insert`s in wire order — the only behaviour the
`HashMap`-typed container admits (a later duplicate tag overwrites the earlier
binding). -/
def templateMapGo (fuel : Nat) (elements : Nat → Option ElementType)
    (acc : FieldMap) (raw : List Nat) : Except DecodeError FieldMap :=
  match fuel with
  | 0 => .error (.messageTooShort raw.length 0)
  | fuel + 1 =>
    if raw.isEmpty then .ok acc
    else
      match read_tlv fuel elements raw with
      | .error e => .error e
      | .ok (tag, len, value) => templateMapGo fuel elements (acc.insert tag value) (raw.drop len)

end

/-- `template` decoding of a template body into its field map (the
`ElementType::Template` arm of `decode_with_type` applied to a value slice).
The fuel only bounds the recursion: every decoded field consumes at least two
bytes and nesting one level costs three fuel units, so `3 * raw.length + 3`
never runs out. -/
def templateMap (elements : Nat → Option ElementType) (raw : List Nat) :
    Except DecodeError FieldMap :=
  templateMapGo (3 * raw.length + 3) elements [] raw

/-! ### DOL encoding (src/tlv/dol.rs `Dol::encode`)

The imperative source pre-allocates a zeroed buffer and writes each entry's
`size`-byte window with `split_at_mut`; the windows are consecutive and their
total is exactly `self.size`, so the encoding is the concatenation of the
per-entry windows after the optional header. -/

/-- The "provider state" mapping tags to values (`OptionsMap`). -/
abbrev OptionsMap := FieldMap

/-- `Dol::copy_bytes` into a zeroed `size`-byte window: left-justified copy,
truncated on the right, zero padding retained. -/
def copyBytes (b : List Nat) (size : Nat) : List Nat :=
  b.take size ++ List.replicate (size - b.length) 0

/-- The packed bytes written for a digit string: `chunks(2)` with an `0xF` low
nibble for a trailing single digit. -/
def digitPairs : List Nat → List Nat
  | [] => []
  | [d] => [(d <<< 4) ||| 0x0f]
  | d1 :: d2 :: ds => ((d1 <<< 4) ||| d2) :: digitPairs ds

/-- A digit string's `size`-byte window: the window is first filled with `0xFF`
and then the packed digit bytes are zipped over it from the left. -/
def digitStringBytes (s : List Nat) (size : Nat) : List Nat :=
  (digitPairs s).take size ++ List.replicate (size - (digitPairs s).length) 0xff

/-- A numeric value's `size`-byte window: right-justified BCD, two digits per
byte, filled from the least significant end (`number % 100`, `number /= 100`). -/
def numericBytes : Nat → Nat → List Nat
  | 0, _ => []
  | k + 1, n => numericBytes k (n / 100) ++ [((n % 100 / 10) <<< 4) ||| (n % 100 % 10)]

/-- One DOL entry's `size`-byte window (the `match value` of src/tlv/dol.rs
lines 68-97; an absent tag leaves the zeroed window). -/
def encodeEntryValue (size : Nat) : Option Value → List Nat
  | none => List.replicate size 0
  | some v =>
    match v with
    | .alphabetic s => copyBytes s size
    | .alphanumeric s => copyBytes s size
    | .alphanumericSpecial s => copyBytes s size
    | .binary b => copyBytes b size
    | .digitString s => digitStringBytes s size
    | .numeric n => numericBytes size n
    | .template _ => List.replicate size 0
    | .dol _ => List.replicate size 0

/-- The wrap-tag header of `Dol::encode` (src/tlv/dol.rs lines 35-61): a
two-byte tag when the tag has a nonzero high byte, then either the single raw
size byte (`self.size < 256`) or `0x80 | (len_len - 1)` followed by the trailing
`len_len - 1` bytes of the 8-byte big-endian size. -/
def Dol.headerBytes (t size : Nat) : List Nat :=
  let tag_len := if 256 ≤ t then 2 else 1
  let len_len := if size < 256 then 1 else size.log2 / 8 + 2
  (if tag_len = 1 then [t % 256] else natToBe 2 t) ++
    (if len_len = 1 then [size % 256]
     else (0x80 ||| (len_len - 1)) :: (natToBe 8 size).drop (9 - len_len))

/-- `Dol::encode` (src/tlv/dol.rs lines 31-103). -/
def Dol.encode (d : Dol) (tag : Option Nat) (data : OptionsMap) : List Nat :=
  (match tag with
   | some t => Dol.headerBytes t d.size
   | none => []) ++
  (d.entries.map (fun e => encodeEntryValue e.size (data.get e.tag))).flatten

/-! ### APDU transport (src/exchange.rs)

The card itself (the `pcsc` transmit primitive) is modelled as a finite oracle:
the list of raw byte responses the card would return to the successive
transmissions, consumed in order.  `exchange` additionally returns the
transcript of the frames it transmitted, so the theorems can speak about which
commands were (re)issued.  `panic` marks where the source indexes
`data[data.len() - 2]` without the length check it applies to the first
response: on a response shorter than two bytes the Rust program panics. -/

/-- `ADPUCommand` (src/exchange.rs lines 3-17). -/
structure ADPUCommand where
  cla : Nat
  ins : Nat
  p1 : Nat
  p2 : Nat
  data : List Nat
  ne : Nat
deriving DecidableEq, Repr

/-- `ADPUCommand::encode` (src/exchange.rs lines 20-52).  `nc as u8` and the
`as u16` truncations are `% 256` / `% 65536`; note that `ne > 65536` falls
through every `Le` branch without appending anything and without failing. -/
def ADPUCommand.encode (c : ADPUCommand) : Option (List Nat) :=
  let nc := c.data.length
  let lcPart : Option (List Nat) :=
    if nc = 0 then some []
    else if nc ≤ 255 then some [nc]
    else if nc ≤ 65535 then some (0 :: natToBe 2 nc)
    else none
  match lcPart with
  | none => none
  | some lc =>
    let le : List Nat :=
      if c.ne = 0 then []
      else if c.ne ≤ 256 then [c.ne % 256]
      else if c.ne ≤ 65536 then (if nc ≤ 255 then [0] else []) ++ natToBe 2 (c.ne % 65536)
      else []
    some ([c.cla, c.ins, c.p1, c.p2] ++ lc ++ c.data ++ le)

/-- The outcome of `exchange`: a body/status pair, an `anyhow` error carrying
the source's message, or a Rust panic (out-of-range indexing). -/
inductive ExchangeOutcome where
  | ok (body : List Nat) (sw : Nat)
  | err (msg : String)
  | panic
deriving DecidableEq, Repr

/-- The GET RESPONSE frame `00 C0 00 00 SW2` (src/exchange.rs lines 131-137). -/
def getResponseFrame (sw2 : Nat) : List Nat := [0x00, 0xc0, 0x00, 0x00, sw2]

/-- The `while sw1 == 0x61` continuation loop of `exchange` (src/exchange.rs
lines 129-145).  Note the status bytes of a continuation response are read by
direct indexing with no length check: a response shorter than two bytes is a
panic. -/
def exchangeLoop (acc : List Nat) (sw1 sw2 : Nat) :
    List (List Nat) → ExchangeOutcome × List (List Nat)
  | [] =>
    if sw1 = 0x61 then
      (.err "Failed to recieve from card while requesting continuation data",
       [getResponseFrame sw2])
    else (.ok acc ((sw1 <<< 8) ||| sw2), [])
  | data :: rest =>
    if sw1 = 0x61 then
      if data.length < 2 then (.panic, [getResponseFrame sw2])
      else
        let r := exchangeLoop (acc ++ data.take (data.length - 2))
          (byteAt data (data.length - 2)) (byteAt data (data.length - 1)) rest
        (r.1, getResponseFrame sw2 :: r.2)
    else (.ok acc ((sw1 <<< 8) ||| sw2), [])

/-- `exchange` (src/exchange.rs lines 88-148) over a response oracle.  The first
component is the outcome, the second the transcript of transmitted frames. -/
def exchange (command : ADPUCommand) (resps : List (List Nat)) :
    ExchangeOutcome × List (List Nat) :=
  match command.encode with
  | none => (.err "Could not encode command", [])
  | some frame =>
    match resps with
    | [] => (.err "Failed to recieve from card", [frame])
    | data :: rest =>
      if data.length < 2 then (.err "Received message too short", [frame])
      else
        let sw1 := byteAt data (data.length - 2)
        let sw2 := byteAt data (data.length - 1)
        let response := data.take (data.length - 2)
        if sw1 = 0x6c then
          match ADPUCommand.encode { command with ne := sw2 } with
          | none => (.err "Could not encode command", [frame])
          | some frame2 =>
            match rest with
            | [] => (.err "Failed to recieve from card after reducing size", [frame, frame2])
            | data2 :: rest2 =>
              if data2.length < 2 then (.panic, [frame, frame2])
              else
                let r := exchangeLoop (response ++ data2.take (data2.length - 2))
                  (byteAt data2 (data2.length - 2)) (byteAt data2 (data2.length - 1)) rest2
                (r.1, frame :: frame2 :: r.2)
        else
          let r := exchangeLoop response sw1 sw2 rest
          (r.1, frame :: r.2)

/-! ### PSE application discovery (src/pse.rs) -/

/-- `ApplicationTemplate` (src/pse.rs lines 9-16), with strings as byte lists. -/
structure ApplicationTemplate where
  aid : List Nat
  label : List Nat
  priority : Option Nat
  country : Option (List Nat)
  iin : Option Nat
deriving DecidableEq, Repr

/-- The record loop of `list_from_pse` (src/pse.rs lines 108-131) over the
records it still has to visit.  `readRecord` is the oracle answering READ RECORD
for a record number with `(body, status)`; `parse` is the record-decoding chain
`read_field` / `into_template` / `into_path [0x61]` / `ApplicationTemplate::try_from`
of lines 112-124, abstracted because the claim under study concerns only the
status-word handling.  A record with status `0x9000` is parsed and collected, a
status `0x6a83` stops the loop, and any other status falls through both `if`s:
the loop continues with the next record. -/
def list_from_pse_go (readRecord : Nat → List Nat × Nat)
    (parse : List Nat → Except DecodeError ApplicationTemplate) :
    List Nat → Except DecodeError (List ApplicationTemplate)
  | [] => .ok []
  | recno :: recs =>
    let r := readRecord recno
    if r.2 = 0x9000 then
      match parse r.1 with
      | .error e => .error e
      | .ok app =>
        match list_from_pse_go readRecord parse recs with
        | .error e => .error e
        | .ok apps => .ok (app :: apps)
    else if r.2 = 0x6a83 then .ok []
    else list_from_pse_go readRecord parse recs

/-- `list_from_pse`'s enumeration of records 1..15 (`for rec in 1..16`,
src/pse.rs line 108). -/
def list_from_pse_records (readRecord : Nat → List Nat × Nat)
    (parse : List Nat → Except DecodeError ApplicationTemplate) :
    Except DecodeError (List ApplicationTemplate) :=
  list_from_pse_go readRecord parse (List.range' 1 15)

/-! ### Certificate chain (src/crypto/chain.rs, src/crypto/errors.rs,
src/crypto/ca_keys.rs)

`chrono::NaiveDate` is modelled as a concrete Gregorian date record (the source
only builds dates from `from_ymd_opt` and steps back a day with `pred_opt`).
The static `CA_KEYS` table is passed as a lookup-function parameter.  The
modular exponentiation `DynResidue::pow_bounded_exp(_, 32)` on a `u32` exponent
is exactly `c ^ e % m`. -/

/-- The verification-error enumeration (`VerifyError`, src/crypto/errors.rs). -/
inductive VerifyError where
  | unknownCAKey (rid : List Nat) (index : Nat)
  | certificateTooLarge (size : Nat)
  | certificateLengthMismatch (modSize certSize : Nat)
  | invalidSignature
  | invalidData
  | missingTag (tag : Nat)
  | unmatchedPAN
deriving DecidableEq, Repr

/-- A Gregorian calendar date (`chrono::NaiveDate`). -/
structure Date where
  year : Int
  month : Nat
  day : Nat
deriving DecidableEq, Repr

/-- Gregorian leap-year rule. -/
def isLeapYear (y : Int) : Bool := (y % 4 = 0 ∧ y % 100 ≠ 0) ∨ y % 400 = 0

/-- Days in a month of a given year. -/
def daysInMonth (y : Int) (m : Nat) : Nat :=
  if m = 2 then (if isLeapYear y then 29 else 28)
  else if m = 4 ∨ m = 6 ∨ m = 9 ∨ m = 11 then 30
  else 31

/-- `chrono::NaiveDate::from_ymd_opt`: `some` exactly on a valid calendar date. -/
def from_ymd_opt (y : Int) (m d : Nat) : Option Date :=
  if 1 ≤ m ∧ m ≤ 12 ∧ 1 ≤ d ∧ d ≤ daysInMonth y m then some ⟨y, m, d⟩ else none

/-- The previous calendar day (`chrono::NaiveDate::pred_opt`, which is `some`
everywhere in the year range relevant here). -/
def Date.pred (dt : Date) : Date :=
  if dt.day > 1 then ⟨dt.year, dt.month, dt.day - 1⟩
  else if dt.month > 1 then ⟨dt.year, dt.month - 1, daysInMonth dt.year (dt.month - 1)⟩
  else ⟨dt.year - 1, 12, 31⟩

/-- `KeyId` (src/crypto/ca_keys.rs): RID bytes and key index. -/
structure KeyId where
  rid : List Nat
  index : Nat
deriving DecidableEq, Repr

/-- `KeyData` (src/crypto/ca_keys.rs): a CA public key table entry. -/
structure KeyData where
  expiry : Date
  exponent : Nat
  modulus : Nat
deriving DecidableEq, Repr

/-- `certificate_to_bigint` (src/crypto/chain.rs lines 17-26): reject
certificates above 248 bytes, otherwise read big-endian into a `U2048` (exact,
since 248 bytes always fit). -/
def certificate_to_bigint (certificate : List Nat) : Except VerifyError Nat :=
  if certificate.length > 248 then .error (.certificateTooLarge certificate.length)
  else .ok (beNat certificate)

/-- `date_ym` (src/crypto/chain.rs lines 28-38): parse the BCD `MM YY` expiry
field.  Note the source builds the first day of month `month` itself — not of
the month after — and steps back one day; only `month = 12` is special-cased to
January of the next year. -/
def date_ym (mmyy : List Nat) : Except VerifyError Date :=
  match numeric (byteSlice mmyy 1 2) with
  | .error _ => .error .invalidData
  | .ok yy =>
    match numeric (byteSlice mmyy 0 1) with
    | .error _ => .error .invalidData
    | .ok mm =>
      let year := 2000 + yy
      let ym : Nat × Nat := if mm = 12 then (year + 1, 1) else (year, mm)
      match from_ymd_opt (Int.ofNat ym.1) ym.2 1 with
      | none => .error .invalidData
      | some date => .ok date.pred

/-- The recovered certificate bytes: serialize `cert ^ e mod m` as a 256-byte
`U2048` and keep the low `modBytes m` bytes (`recovered_arr` / `recovered`,
src/crypto/chain.rs lines 92-98 and 201-207). -/
def recoverCert (m e : Nat) (cert : List Nat) : List Nat :=
  (natToBe 256 (beNat cert ^ e % m)).drop (256 - modBytes m)

/-- `IssuerPublicKey` (src/crypto/chain.rs lines 40-47). -/
structure IssuerPublicKey where
  iin : List Nat
  expiry : Date
  serial_number : List Nat
  exponent : Nat
  modulus : Nat
deriving DecidableEq, Repr

/-- `IssuerPublicKey::from_options` (src/crypto/chain.rs lines 49-152), with
the static `CA_KEYS` table passed as `caKeys`.  Every step mirrors the source in
order: tag extraction (`0x8F`, `0x90`, `0x9F32`, `0x92`, `0x5A`), CA lookup,
length check, recovery, the structural check on bytes 0/1/11/12, the SHA-1
check, the IIN prefix check, the modulus reconstruction, the exponent length
check, and `date_ym` inside the final construction. -/
def IssuerPublicKey.from_options (caKeys : KeyId → Option KeyData) (rid : List Nat)
    (options : FieldMap) : Except VerifyError IssuerPublicKey :=
  match ((options.get 0x8f).bind Value.asBinary).bind List.head? with
  | none => .error (.missingTag 0x8f)
  | some index =>
  match (options.get 0x90).bind Value.asBinary with
  | none => .error (.missingTag 0x90)
  | some issuer_certificate_be =>
  match (options.get 0x9f32).bind Value.asBinary with
  | none => .error (.missingTag 0x9f32)
  | some issuer_exponent_be =>
  let issuer_remainder := ((options.get 0x92).bind Value.asBinary).getD []
  match (options.get 0x5a).bind Value.asDigitString with
  | none => .error (.missingTag 0x5a)
  | some pan =>
  match caKeys ⟨rid, index⟩ with
  | none => .error (.unknownCAKey rid index)
  | some ca_key =>
  let ca_modulus_len := modBytes ca_key.modulus
  if ca_modulus_len ≠ issuer_certificate_be.length then
    .error (.certificateLengthMismatch ca_modulus_len issuer_certificate_be.length)
  else
  match certificate_to_bigint issuer_certificate_be with
  | .error e => .error e
  | .ok issuer_certificate =>
  let recovered := (natToBe 256 (issuer_certificate ^ ca_key.exponent % ca_key.modulus)).drop
    (256 - ca_modulus_len)
  if byteAt recovered 0 ≠ 0x6a ∨ byteAt recovered 1 ≠ 0x02 ∨
      byteAt recovered 11 ≠ 1 ∨ byteAt recovered 12 ≠ 1 then
    .error .invalidSignature
  else
  if sha1 (byteSlice recovered 1 (ca_modulus_len - 21) ++ issuer_remainder ++ issuer_exponent_be)
      ≠ byteSlice recovered (ca_modulus_len - 21) (ca_modulus_len - 1) then
    .error .invalidSignature
  else
  match compressed_numeric (byteSlice recovered 2 6) with
  | .error _ => .error .unmatchedPAN
  | .ok iin =>
  if ¬ iin.isPrefixOf pan then .error .unmatchedPAN
  else
  let issuer_modulus_len := byteAt recovered 13
  match (if issuer_modulus_len ≤ ca_modulus_len - 36 then
      certificate_to_bigint (byteSlice recovered 15 (15 + issuer_modulus_len))
    else
      match certificate_to_bigint (byteSlice recovered 15 (ca_modulus_len - 21)) with
      | .error e => .error e
      | .ok hi =>
        match certificate_to_bigint issuer_remainder with
        | .error e => .error e
        | .ok lo => .ok (u2048shl hi (issuer_remainder.length * 8) ||| lo)) with
  | .error e => .error e
  | .ok issuer_modulus =>
  if issuer_exponent_be.length > 4 then .error .invalidData
  else
  match date_ym (byteSlice recovered 6 8) with
  | .error e => .error e
  | .ok expiry =>
  .ok { iin := iin, expiry := expiry, serial_number := byteSlice recovered 8 11,
        exponent := beNat issuer_exponent_be, modulus := issuer_modulus }

/-- `ICCPublicKey` (src/crypto/chain.rs lines 154-161). -/
structure ICCPublicKey where
  pan : List Nat
  expiry : Date
  serial_number : List Nat
  exponent : Nat
  modulus : Nat
deriving DecidableEq, Repr

/-- `ICCPublicKey::from_options` (src/crypto/chain.rs lines 163-276): the same
algorithm against the issuer key, with tags `0x9F46`/`0x9F47`/`0x9F48`, the
format byte `0x04`, offsets shifted by the 10-byte PAN, the SDA stream hashed
after the exponent, the AIP appended when tag `0x9F4A` is present, and exact
PAN equality. -/
def ICCPublicKey.from_options (issuer_key : IssuerPublicKey) (sda_data : List Nat)
    (options : FieldMap) : Except VerifyError ICCPublicKey :=
  match (options.get 0x9f46).bind Value.asBinary with
  | none => .error (.missingTag 0x9f46)
  | some icc_certificate_be =>
  match (options.get 0x9f47).bind Value.asBinary with
  | none => .error (.missingTag 0x9f47)
  | some icc_exponent_be =>
  let icc_remainder := ((options.get 0x9f48).bind Value.asBinary).getD []
  match (options.get 0x5a).bind Value.asDigitString with
  | none => .error (.missingTag 0x5a)
  | some options_pan =>
  let issuer_modulus_len := modBytes issuer_key.modulus
  if issuer_modulus_len ≠ icc_certificate_be.length then
    .error (.certificateLengthMismatch issuer_modulus_len icc_certificate_be.length)
  else
  match certificate_to_bigint icc_certificate_be with
  | .error e => .error e
  | .ok icc_certificate =>
  let recovered := (natToBe 256 (icc_certificate ^ issuer_key.exponent % issuer_key.modulus)).drop
    (256 - issuer_modulus_len)
  if byteAt recovered 0 ≠ 0x6a ∨ byteAt recovered 1 ≠ 0x04 ∨
      byteAt recovered 17 ≠ 1 ∨ byteAt recovered 18 ≠ 1 then
    .error .invalidSignature
  else
  let hash_input := byteSlice recovered 1 (issuer_modulus_len - 21) ++ icc_remainder ++
    icc_exponent_be ++ sda_data ++
    (if options.containsKey 0x9f4a then ((options.get 0x82).bind Value.asBinary).getD [] else [])
  if sha1 hash_input ≠ byteSlice recovered (issuer_modulus_len - 21) (issuer_modulus_len - 1) then
    .error .invalidSignature
  else
  match compressed_numeric (byteSlice recovered 2 12) with
  | .error _ => .error .unmatchedPAN
  | .ok pan =>
  if pan ≠ options_pan then .error .unmatchedPAN
  else
  let icc_modulus_len := byteAt recovered 19
  match (if icc_modulus_len ≤ issuer_modulus_len - 42 then
      certificate_to_bigint (byteSlice recovered 21 (21 + icc_modulus_len))
    else
      match certificate_to_bigint (byteSlice recovered 21 (issuer_modulus_len - 21)) with
      | .error e => .error e
      | .ok hi =>
        match certificate_to_bigint icc_remainder with
        | .error e => .error e
        | .ok lo => .ok (u2048shl hi (icc_remainder.length * 8) ||| lo)) with
  | .error e => .error e
  | .ok icc_modulus =>
  if icc_exponent_be.length > 4 then .error .invalidData
  else
  match date_ym (byteSlice recovered 12 14) with
  | .error e => .error e
  | .ok expiry =>
  .ok { pan := pan, expiry := expiry, serial_number := byteSlice recovered 14 17,
        exponent := beNat icc_exponent_be, modulus := icc_modulus }

/-! ### Concrete certificate-verification test inputs

Hand-built input sets that drive `from_options` down specific paths.  Each uses
the CA key `(RID A0 00 00 00 04, index 05)` with public exponent 1 and an
all-ones modulus, so recovery is the identity on the certificate bytes and the
recovered payload can be written down directly; the 20-byte digest field of each
payload holds the genuine SHA-1 of the bytes the source hashes for it. -/

/-- RID `A0 00 00 00 04`. -/
def caRid : List Nat := [0xa0, 0x00, 0x00, 0x00, 0x04]

/-- A 36-byte (288-bit) all-ones CA modulus. -/
def caMod36 : Nat := 2 ^ 288 - 1

/-- A 45-byte (360-bit) all-ones CA modulus. -/
def caMod45 : Nat := 2 ^ 360 - 1

/-- The 36-byte test CA key: exponent 1, modulus `caMod36`. -/
def caKeyData36 : KeyData := ⟨⟨2030, 12, 31⟩, 1, caMod36⟩

/-- The 45-byte test CA key: exponent 1, modulus `caMod45`. -/
def caKeyData45 : KeyData := ⟨⟨2030, 12, 31⟩, 1, caMod45⟩

/-- CA key table holding the 36-byte test key under index 5. -/
def caKeys36 : KeyId → Option KeyData := fun kid =>
  if kid = ⟨caRid, 0x05⟩ then some caKeyData36 else none

/-- CA key table holding the 45-byte test key under index 5. -/
def caKeys45 : KeyId → Option KeyData := fun kid =>
  if kid = ⟨caRid, 0x05⟩ then some caKeyData45 else none

/-- A 36-byte issuer certificate whose recovered payload passes the structural
and SHA-1 checks: header `6A 02`, IIN digits `1 2 3 4`, expiry `01 25`, the two
`01` indicator bytes at offsets 11/12, a declared child-modulus length of 0, and
the true SHA-1 of `payload[1..15] ++ exponent bytes 03` at offsets 15..34.  Its
exponent-length byte (offset 14) is `0x00` and its trailer byte (offset 35) is
`0x00`, not `0xBC`. -/
def issuerCert36 : List Nat :=
  [0x6a, 0x02, 0x12, 0x34, 0xff, 0xff, 0x01, 0x25, 0x00, 0x00, 0x01, 0x01, 0x01, 0x00, 0x00,
   0x54, 0xbb, 0xc3, 0x2a, 0x6e, 0xcf, 0x79, 0x9e, 0x64, 0xb2, 0x21, 0x29, 0x68, 0x98, 0xa4,
   0x1d, 0x5a, 0x5c, 0x90, 0x55, 0x00]

/-- Card options for a successful issuer verification of `issuerCert36`:
index 5, the certificate, exponent bytes `03`, PAN `1 2 3 4 5 6`. -/
def issuerOptionsOk : FieldMap :=
  [(0x8f, .binary [0x05]), (0x90, .binary issuerCert36), (0x9f32, .binary [0x03]),
   (0x5a, .digitString [1, 2, 3, 4, 5, 6])]

/-- The same options with a PAN the recovered IIN `1 2 3 4` is not a prefix of. -/
def issuerOptionsBadPan : FieldMap :=
  [(0x8f, .binary [0x05]), (0x90, .binary issuerCert36), (0x9f32, .binary [0x03]),
   (0x5a, .digitString [9, 9])]

/-- `issuerCert36` with its first byte replaced by `0x00`: the recovered payload
fails the structural check. -/
def issuerCertBad : List Nat := 0x00 :: issuerCert36.tail

/-- The same options with a certificate whose first recovered byte is not `6A`
(structural check fails). -/
def issuerOptionsBadFormat : FieldMap :=
  [(0x8f, .binary [0x05]), (0x90, .binary issuerCertBad), (0x9f32, .binary [0x03]),
   (0x5a, .digitString [1, 2, 3, 4, 5, 6])]

/-- A 43-byte (344-bit) all-ones issuer modulus for ICC verification tests. -/
def issMod43 : Nat := 2 ^ 344 - 1

/-- An issuer public key with exponent 1 and the 43-byte all-ones modulus. -/
def issuerKey43 : IssuerPublicKey := ⟨[1, 2, 3, 4], ⟨2024, 12, 31⟩, [0, 0, 1], 1, issMod43⟩

/-- A 43-byte ICC certificate whose recovered payload passes the structural and
SHA-1 checks: header `6A 04`, the 10 PAN bytes decoding to digits
`1 2 3 4 5 6 7 8 9 0 1 2 3 4 5`, indicator bytes at offsets 17/18, digest at
offsets 22..41. -/
def iccCert43 : List Nat :=
  [0x6a, 0x04, 0x12, 0x34, 0x56, 0x78, 0x90, 0x12, 0x34, 0x5f, 0xff, 0xff, 0x01, 0x25, 0x00,
   0x00, 0x02, 0x01, 0x01, 0x00, 0x00, 0x00, 0xa0, 0xbb, 0xa2, 0xa3, 0x3f, 0x7e, 0x40, 0xef,
   0x48, 0x0f, 0x59, 0x88, 0xfe, 0x45, 0x8b, 0x61, 0x5b, 0xf8, 0xde, 0xcc, 0xbc]

/-- ICC options whose card PAN (`1`) differs from the recovered PAN. -/
def iccOptionsBadPan : FieldMap :=
  [(0x9f46, .binary iccCert43), (0x9f47, .binary [0x03]), (0x5a, .digitString [1])]

/-- ICC options whose card PAN equals the recovered PAN: a fully successful ICC
verification. -/
def iccOptionsOk : FieldMap :=
  [(0x9f46, .binary iccCert43), (0x9f47, .binary [0x03]),
   (0x5a, .digitString [1, 2, 3, 4, 5, 6, 7, 8, 9, 0, 1, 2, 3, 4, 5])]

/-- `iccCert43` with its first byte replaced by `0x00`: the recovered payload
fails the structural check. -/
def iccCertBad : List Nat := 0x00 :: iccCert43.tail

/-- ICC options with a certificate failing the structural check. -/
def iccOptionsBadFormat : FieldMap :=
  [(0x9f46, .binary iccCertBad), (0x9f47, .binary [0x03]),
   (0x5a, .digitString [1])]

/-- A 45-byte issuer certificate driving the remainder branch of the modulus
reconstruction: declared child-modulus length `0x0A` exceeds `45 - 36 = 9`, the
nine payload bytes at offsets 15..23 start with the nonzero byte `0xAB`, and the
248-byte remainder `issuerRemainder248` follows, so the reconstructed integer
overflows 2048 bits and the `U2048` shift truncates the `0xAB`. -/
def issuerCert45 : List Nat :=
  [0x6a, 0x02, 0x12, 0x34, 0xff, 0xff, 0x01, 0x25, 0x00, 0x00, 0x03, 0x01, 0x01, 0x0a, 0x01,
   0xab, 0x01, 0x02, 0x03, 0x04, 0x05, 0x06, 0x07, 0x08, 0xfb, 0x74, 0x5e, 0xaf, 0x41, 0x20,
   0x7e, 0x59, 0x2d, 0x32, 0x1e, 0xa7, 0x57, 0x55, 0xac, 0x13, 0xa2, 0x97, 0x02, 0xe3, 0xbc]

/-- A 248-byte remainder (tag `0x92`) with nonzero leading byte. -/
def issuerRemainder248 : List Nat :=
  [0x99, 0x03, 0x0a, 0x11, 0x18, 0x1f, 0x26, 0x2d, 0x34, 0x3b, 0x42, 0x49, 0x50, 0x57, 0x5e,
   0x65, 0x6c, 0x73, 0x7a, 0x81, 0x88, 0x8f, 0x96, 0x9d, 0xa4, 0xab, 0xb2, 0xb9, 0xc0, 0xc7,
   0xce, 0xd5, 0xdc, 0xe3, 0xea, 0xf1, 0xf8, 0xff, 0x06, 0x0d, 0x14, 0x1b, 0x22, 0x29, 0x30,
   0x37, 0x3e, 0x45, 0x4c, 0x53, 0x5a, 0x61, 0x68, 0x6f, 0x76, 0x7d, 0x84, 0x8b, 0x92, 0x99,
   0xa0, 0xa7, 0xae, 0xb5, 0xbc, 0xc3, 0xca, 0xd1, 0xd8, 0xdf, 0xe6, 0xed, 0xf4, 0xfb, 0x02,
   0x09, 0x10, 0x17, 0x1e, 0x25, 0x2c, 0x33, 0x3a, 0x41, 0x48, 0x4f, 0x56, 0x5d, 0x64, 0x6b,
   0x72, 0x79, 0x80, 0x87, 0x8e, 0x95, 0x9c, 0xa3, 0xaa, 0xb1, 0xb8, 0xbf, 0xc6, 0xcd, 0xd4,
   0xdb, 0xe2, 0xe9, 0xf0, 0xf7, 0xfe, 0x05, 0x0c, 0x13, 0x1a, 0x21, 0x28, 0x2f, 0x36, 0x3d,
   0x44, 0x4b, 0x52, 0x59, 0x60, 0x67, 0x6e, 0x75, 0x7c, 0x83, 0x8a, 0x91, 0x98, 0x9f, 0xa6,
   0xad, 0xb4, 0xbb, 0xc2, 0xc9, 0xd0, 0xd7, 0xde, 0xe5, 0xec, 0xf3, 0xfa, 0x01, 0x08, 0x0f,
   0x16, 0x1d, 0x24, 0x2b, 0x32, 0x39, 0x40, 0x47, 0x4e, 0x55, 0x5c, 0x63, 0x6a, 0x71, 0x78,
   0x7f, 0x86, 0x8d, 0x94, 0x9b, 0xa2, 0xa9, 0xb0, 0xb7, 0xbe, 0xc5, 0xcc, 0xd3, 0xda, 0xe1,
   0xe8, 0xef, 0xf6, 0xfd, 0x04, 0x0b, 0x12, 0x19, 0x20, 0x27, 0x2e, 0x35, 0x3c, 0x43, 0x4a,
   0x51, 0x58, 0x5f, 0x66, 0x6d, 0x74, 0x7b, 0x82, 0x89, 0x90, 0x97, 0x9e, 0xa5, 0xac, 0xb3,
   0xba, 0xc1, 0xc8, 0xcf, 0xd6, 0xdd, 0xe4, 0xeb, 0xf2, 0xf9, 0x00, 0x07, 0x0e, 0x15, 0x1c,
   0x23, 0x2a, 0x31, 0x38, 0x3f, 0x46, 0x4d, 0x54, 0x5b, 0x62, 0x69, 0x70, 0x77, 0x7e, 0x85,
   0x8c, 0x93, 0x9a, 0xa1, 0xa8, 0xaf, 0xb6, 0xbd]

/-- Options for the 45-byte certificate with the long remainder. -/
def issuerOptions45 : FieldMap :=
  [(0x8f, .binary [0x05]), (0x90, .binary issuerCert45), (0x9f32, .binary [0x03]),
   (0x92, .binary issuerRemainder248), (0x5a, .digitString [1, 2, 3, 4, 5, 6])]

/-! ### Spec-side definitions

Definitions in this section follow the specification's words rather than the
source, for comparison against the embedded code. -/

/-- Spec-side (§4.1 / claim C9): the minimal BER-TLV tag/length encoding of
`(t, len)` — big-endian tag bytes (one below 0x100, two otherwise), then a
single length byte for lengths up to 127, otherwise `0x80 + n` followed by the
minimal `n`-byte big-endian length. -/
def minimalTagLength (t len : Nat) : List Nat :=
  (if 256 ≤ t then natToBe 2 t else [t]) ++
    (if len ≤ 127 then [len] else (0x80 + modBytes len) :: natToBe (modBytes len) len)

/-- Spec-side (claim C6): the raw bytes of an oracle response modelled as a body
followed by the two status bytes SW1, SW2. -/
def rawResponse (r : List Nat × Nat × Nat) : List Nat := r.1 ++ [r.2.1, r.2.2]

/-- Spec-side (claim C6): the continuation phase on structured responses.
While the latest status has SW1 = 0x61, transmit GET RESPONSE `00 C0 00 00 SW2`
and append the body; at the first non-continuation response return the
accumulated body and `SW1 << 8 | SW2`.  `none` when the oracle runs out. -/
def specCont (acc : List Nat) (sw1 sw2 : Nat) :
    List (List Nat × Nat × Nat) → Option (List Nat × Nat × List (List Nat))
  | [] => if sw1 = 0x61 then none else some (acc, (sw1 <<< 8) ||| sw2, [])
  | (b, s1, s2) :: rest =>
    if sw1 = 0x61 then
      (specCont (acc ++ b) s1 s2 rest).map (fun r => (r.1, r.2.1, getResponseFrame sw2 :: r.2.2))
    else some (acc, (sw1 <<< 8) ||| sw2, [])

/-- Spec-side (claim C6): the exchange state machine on structured responses.
If the first response has SW1 = 0x6C, the same command is reissued with
`Ne := SW2` and its response starts the continuation phase; otherwise the first
response starts it directly.  The result carries the accumulated body, the
final status and the transcript of transmitted frames. -/
def exchangeSpec (cmd : ADPUCommand) : List (List Nat × Nat × Nat) →
    Option (List Nat × Nat × List (List Nat))
  | [] => none
  | (b0, s1, s2) :: rest =>
    match cmd.encode with
    | none => none
    | some frame =>
      if s1 = 0x6c then
        match ADPUCommand.encode { cmd with ne := s2 } with
        | none => none
        | some frame2 =>
          match rest with
          | [] => none
          | (b1, s1', s2') :: rest2 =>
            (specCont (b0 ++ b1) s1' s2' rest2).map
              (fun r => (r.1, r.2.1, frame :: frame2 :: r.2.2))
      else (specCont b0 s1 s2 rest).map (fun r => (r.1, r.2.1, frame :: r.2.2))

/-- Spec-side (claim C2): the last day of month `m` of year `y`, computed as the
first day of the next month minus one day, month 12 wrapping to January of the
next year. -/
def lastDayOfMonth (y m : Nat) : Date :=
  if m = 12 then Date.pred ⟨Int.ofNat (y + 1), 1, 1⟩ else Date.pred ⟨Int.ofNat y, m + 1, 1⟩

/-! ## Theorems -/

instance {ε α : Type} [DecidableEq ε] [DecidableEq α] : DecidableEq (Except ε α) := fun a b =>
  match a, b with
  | .error e, .error f => decidable_of_iff (e = f) (by simp)
  | .ok x, .ok y => decidable_of_iff (x = y) (by simp)
  | .error _, .ok _ => isFalse (by simp)
  | .ok _, .error _ => isFalse (by simp)

/-- **C2** (code bug).  On the recovered expiry field `MM YY = 01 25` the source
`date_ym` returns 2024-12-31 — the last day of the month *before* month
`MM = 01` — while the claim (and the EMV expiry semantics the special case for
month 12 was written for) requires the last day of January 2025, 2025-01-31.
The code subtracts one day from the first of month `MM` itself instead of the
first of month `MM + 1`; only `MM = 12` hits the correctly wrapped case. -/
theorem c2_date_ym_wrong_month :
    date_ym [0x01, 0x25] = .ok ⟨2024, 12, 31⟩ ∧
    lastDayOfMonth 2025 1 = ⟨2025, 1, 31⟩ ∧
    (⟨2024, 12, 31⟩ : Date) ≠ ⟨2025, 1, 31⟩ := by
  refine ⟨by rfl, by rfl, by decide⟩

/-- **C5** (code bug).  The template body `80 01 AA 80 01 BB` carries two fields
with the same tag `0x80`, but the decoded `Template` value — the
`HashMap`-backed `FieldMap` of src/tlv/types.rs — retains only the later
binding `0x80 ↦ AA BB`-wise the first field `0x80 ↦ AA` is lost, contradicting
the claim that no duplicate-tagged field is lost and that wire order is
observable. -/
theorem c5_template_duplicate_lost :
    templateMap (fun _ => none) [0x80, 0x01, 0xaa, 0x80, 0x01, 0xbb] =
      .ok [(0x80, Value.binary [0xbb])] := by
  rfl

/-- **C7** counterexample.  `encode` succeeds on `Ne = 65537 > 65536`: every
`Le` branch is skipped and the bare header is returned, where the claim says
encoding must fail. -/
theorem c7_counterexample_ne_large :
    (ADPUCommand.encode ⟨0, 0, 0, 0, [], 65537⟩).isSome = true ∧ 65537 > 65536 := by
  refine ⟨by decide, by decide⟩

/-- **C7** (amended).  `ADPUCommand::encode` returns `none` exactly when the
data length exceeds 65535; `Ne > 65536` does not fail — the `Le` field is
silently omitted. -/
theorem c7_encode_none_iff (c : ADPUCommand) :
    c.encode = none ↔ c.data.length > 65535 := by
  unfold ADPUCommand.encode
  dsimp only
  split_ifs with h1 h2 h3 <;> simp <;> omega

/-- **C8** counterexample.  With record 1 answering status `0x6985` (neither
`0x9000` nor `0x6A83`) and record 2 a decodable `0x9000` record, the PSE record
loop returns successfully with record 2's application: the unexpected status is
skipped, not propagated as an error as the claim states. -/
theorem c8_counterexample_status_skipped :
    list_from_pse_records
        (fun n => if n = 1 then ([], 0x6985) else if n = 2 then ([0xaa], 0x9000) else ([], 0x6a83))
        (fun b => .ok ⟨b, [], none, none, none⟩) =
      .ok [⟨[0xaa], [], none, none, none⟩] := by
  rfl

/-- **C8** (amended).  The PSE record loop visits records 1..15 in order up to
(but not including) the first record answered `0x6A83`; within that window the
records answered `0x9000` are parsed and collected in order (a parse failure
propagating), and records with any other status are skipped — their status does
not propagate. -/
theorem c8_record_enumeration (readRecord : Nat → List Nat × Nat)
    (parse : List Nat → Except DecodeError ApplicationTemplate) :
    list_from_pse_records readRecord parse =
      ((((List.range' 1 15).takeWhile (fun n => (readRecord n).2 != 0x6a83)).filter
          (fun n => (readRecord n).2 == 0x9000)).mapM (fun n => parse (readRecord n).1)) := by
  unfold list_from_pse_records
  induction (List.range' 1 15) with
  | nil => rfl
  | cons n l ih =>
    rw [list_from_pse_go, List.takeWhile_cons]
    by_cases h9 : (readRecord n).2 = 0x9000
    · have ht : ((readRecord n).2 != 0x6a83) = true := by simp [h9]
      rw [if_pos h9, ht, if_pos rfl, List.filter_cons_of_pos (by simp [h9]), List.mapM_cons]
      cases hp : parse (readRecord n).1 with
      | error e => simp only [bind, Except.bind]
      | ok app =>
        simp only [bind, Except.bind, ih]
        cases ((l.takeWhile (fun n => (readRecord n).2 != 0x6a83)).filter
            (fun n => (readRecord n).2 == 0x9000)).mapM (fun n => parse (readRecord n).1) with
        | error e => rfl
        | ok apps => rfl
    · rw [if_neg h9]
      by_cases h6 : (readRecord n).2 = 0x6a83
      · have ht : ((readRecord n).2 != 0x6a83) = false := by simp [h6]
        rw [if_pos h6, ht, if_neg (by simp)]
        rfl
      · have ht : ((readRecord n).2 != 0x6a83) = true := by simp [h6]
        rw [if_neg h6, ht, if_pos rfl, List.filter_cons_of_neg (by simp [h9])]
        exact ih

/-! ### Helper lemmas for the certificate-chain theorems -/

lemma date_ym_error_eq (l : List Nat) (e : VerifyError) (h : date_ym l = .error e) :
    e = .invalidData := by
  unfold date_ym at h
  repeat' first
    | (split at h)
    | (dsimp only at h; split at h)
  all_goals simp_all

lemma certificate_to_bigint_error_eq (l : List Nat) (e : VerifyError)
    (h : certificate_to_bigint l = .error e) : e = .certificateTooLarge l.length := by
  unfold certificate_to_bigint at h
  split at h <;> simp_all

lemma reconstruct_error_eq (cond : Prop) [inst : Decidable cond]
    (s1 s2 rem : List Nat) (sh : Nat) (e : VerifyError)
    (h : (if cond then certificate_to_bigint s1
          else match certificate_to_bigint s2 with
            | .error e => .error e
            | .ok hi =>
              match certificate_to_bigint rem with
              | .error e => .error e
              | .ok lo => .ok (u2048shl hi sh ||| lo)) = .error e) :
    ∃ n, e = .certificateTooLarge n := by
  split at h
  · exact ⟨s1.length, certificate_to_bigint_error_eq _ _ h⟩
  · cases h2 : certificate_to_bigint s2 with
    | error e2 =>
      rw [h2] at h
      dsimp only at h
      injection h with he
      subst he
      exact ⟨s2.length, certificate_to_bigint_error_eq _ _ h2⟩
    | ok hi =>
      rw [h2] at h
      dsimp only at h
      cases h3 : certificate_to_bigint rem with
      | error e3 =>
        rw [h3] at h
        dsimp only at h
        injection h with he
        subst he
        exact ⟨rem.length, certificate_to_bigint_error_eq _ _ h3⟩
      | ok lo =>
        rw [h3] at h
        exact Except.noConfusion h

lemma issuer_invalidSignature_iff (caKeys : KeyId → Option KeyData) (rid : List Nat)
    (options : FieldMap) (index : Nat) (cert E pan : List Nat) (caKey : KeyData)
    (hidx : ((options.get 0x8f).bind Value.asBinary).bind List.head? = some index)
    (hcert : (options.get 0x90).bind Value.asBinary = some cert)
    (hexp : (options.get 0x9f32).bind Value.asBinary = some E)
    (hpan : (options.get 0x5a).bind Value.asDigitString = some pan)
    (hca : caKeys ⟨rid, index⟩ = some caKey)
    (hlen : modBytes caKey.modulus = cert.length)
    (hsize : cert.length ≤ 248) :
    (IssuerPublicKey.from_options caKeys rid options = .error .invalidSignature ↔
      ¬(byteAt (recoverCert caKey.modulus caKey.exponent cert) 0 = 0x6a ∧
        byteAt (recoverCert caKey.modulus caKey.exponent cert) 1 = 0x02 ∧
        byteAt (recoverCert caKey.modulus caKey.exponent cert) 11 = 1 ∧
        byteAt (recoverCert caKey.modulus caKey.exponent cert) 12 = 1 ∧
        sha1 (byteSlice (recoverCert caKey.modulus caKey.exponent cert) 1 (modBytes caKey.modulus - 21) ++
            ((options.get 0x92).bind Value.asBinary).getD [] ++ E) =
          byteSlice (recoverCert caKey.modulus caKey.exponent cert) (modBytes caKey.modulus - 21)
            (modBytes caKey.modulus - 1))) := by
  unfold IssuerPublicKey.from_options
  rw [hidx, hcert, hexp, hpan]
  dsimp only
  rw [hca]
  dsimp only
  rw [if_neg (by omega : ¬ modBytes caKey.modulus ≠ cert.length)]
  unfold certificate_to_bigint
  rw [if_neg (by omega : ¬ cert.length > 248)]
  dsimp only
  rw [show List.drop (256 - modBytes caKey.modulus)
      (natToBe 256 (beNat cert ^ caKey.exponent % caKey.modulus)) =
    recoverCert caKey.modulus caKey.exponent cert from rfl]
  by_cases hA : byteAt (recoverCert caKey.modulus caKey.exponent cert) 0 ≠ 0x6a ∨
      byteAt (recoverCert caKey.modulus caKey.exponent cert) 1 ≠ 0x02 ∨
      byteAt (recoverCert caKey.modulus caKey.exponent cert) 11 ≠ 1 ∨
      byteAt (recoverCert caKey.modulus caKey.exponent cert) 12 ≠ 1
  · rw [if_pos hA]
    exact iff_of_true rfl (by tauto)
  · rw [if_neg hA]
    by_cases hB : sha1 (byteSlice (recoverCert caKey.modulus caKey.exponent cert) 1
          (modBytes caKey.modulus - 21) ++
          ((options.get 0x92).bind Value.asBinary).getD [] ++ E) ≠
        byteSlice (recoverCert caKey.modulus caKey.exponent cert) (modBytes caKey.modulus - 21)
          (modBytes caKey.modulus - 1)
    · rw [if_pos hB]
      exact iff_of_true rfl (by tauto)
    · rw [if_neg hB]
      push_neg at hA hB
      apply iff_of_false ?_ (not_not_intro ⟨hA.1, hA.2.1, hA.2.2.1, hA.2.2.2, hB⟩)
      intro hR
      cases hcn : compressed_numeric (byteSlice (recoverCert caKey.modulus caKey.exponent cert) 2 6) with
      | error e =>
        rw [hcn] at hR
        simp at hR
      | ok iin =>
        rw [hcn] at hR
        dsimp only at hR
        by_cases hpre : iin.isPrefixOf pan
        · rw [if_neg (not_not_intro hpre)] at hR
          split at hR
          next e heq =>
            injection hR with he
            subst he
            rcases reconstruct_error_eq _ _ _ _ _ _ heq with ⟨n, hn⟩
            exact VerifyError.noConfusion hn
          next m heq =>
            by_cases h4 : E.length > 4
            · rw [if_pos h4] at hR
              simp at hR
            · rw [if_neg h4] at hR
              split at hR
              next e heq2 =>
                injection hR with he
                subst he
                exact VerifyError.noConfusion (date_ym_error_eq _ _ heq2)
              next d heq2 => simp at hR
        · rw [if_pos hpre] at hR
          simp at hR

lemma icc_invalidSignature_iff (issuer_key : IssuerPublicKey) (sda : List Nat)
    (options : FieldMap) (cert E pan : List Nat)
    (hcert : (options.get 0x9f46).bind Value.asBinary = some cert)
    (hexp : (options.get 0x9f47).bind Value.asBinary = some E)
    (hpan : (options.get 0x5a).bind Value.asDigitString = some pan)
    (hlen : modBytes issuer_key.modulus = cert.length)
    (hsize : cert.length ≤ 248) :
    (ICCPublicKey.from_options issuer_key sda options = .error .invalidSignature ↔
      ¬(byteAt (recoverCert issuer_key.modulus issuer_key.exponent cert) 0 = 0x6a ∧
        byteAt (recoverCert issuer_key.modulus issuer_key.exponent cert) 1 = 0x04 ∧
        byteAt (recoverCert issuer_key.modulus issuer_key.exponent cert) 17 = 1 ∧
        byteAt (recoverCert issuer_key.modulus issuer_key.exponent cert) 18 = 1 ∧
        sha1 (byteSlice (recoverCert issuer_key.modulus issuer_key.exponent cert) 1
              (modBytes issuer_key.modulus - 21) ++
            ((options.get 0x9f48).bind Value.asBinary).getD [] ++ E ++ sda ++
            (if options.containsKey 0x9f4a then ((options.get 0x82).bind Value.asBinary).getD []
             else [])) =
          byteSlice (recoverCert issuer_key.modulus issuer_key.exponent cert)
            (modBytes issuer_key.modulus - 21) (modBytes issuer_key.modulus - 1))) := by
  unfold ICCPublicKey.from_options
  rw [hcert, hexp, hpan]
  dsimp only
  rw [if_neg (by omega : ¬ modBytes issuer_key.modulus ≠ cert.length)]
  unfold certificate_to_bigint
  rw [if_neg (by omega : ¬ cert.length > 248)]
  dsimp only
  rw [show List.drop (256 - modBytes issuer_key.modulus)
      (natToBe 256 (beNat cert ^ issuer_key.exponent % issuer_key.modulus)) =
    recoverCert issuer_key.modulus issuer_key.exponent cert from rfl]
  by_cases hA : byteAt (recoverCert issuer_key.modulus issuer_key.exponent cert) 0 ≠ 0x6a ∨
      byteAt (recoverCert issuer_key.modulus issuer_key.exponent cert) 1 ≠ 0x04 ∨
      byteAt (recoverCert issuer_key.modulus issuer_key.exponent cert) 17 ≠ 1 ∨
      byteAt (recoverCert issuer_key.modulus issuer_key.exponent cert) 18 ≠ 1
  · rw [if_pos hA]
    exact iff_of_true rfl (by tauto)
  · rw [if_neg hA]
    by_cases hB : sha1 (byteSlice (recoverCert issuer_key.modulus issuer_key.exponent cert) 1
          (modBytes issuer_key.modulus - 21) ++
          ((options.get 0x9f48).bind Value.asBinary).getD [] ++ E ++ sda ++
          (if options.containsKey 0x9f4a then ((options.get 0x82).bind Value.asBinary).getD []
           else [])) ≠
        byteSlice (recoverCert issuer_key.modulus issuer_key.exponent cert)
          (modBytes issuer_key.modulus - 21) (modBytes issuer_key.modulus - 1)
    · rw [if_pos hB]
      exact iff_of_true rfl (by tauto)
    · rw [if_neg hB]
      push_neg at hA hB
      apply iff_of_false ?_ (not_not_intro ⟨hA.1, hA.2.1, hA.2.2.1, hA.2.2.2, hB⟩)
      intro hR
      cases hcn : compressed_numeric
          (byteSlice (recoverCert issuer_key.modulus issuer_key.exponent cert) 2 12) with
      | error e =>
        rw [hcn] at hR
        simp at hR
      | ok p =>
        rw [hcn] at hR
        dsimp only at hR
        by_cases hq : p ≠ pan
        · rw [if_pos hq] at hR
          simp at hR
        · rw [if_neg hq] at hR
          split at hR
          next e heq =>
            injection hR with he
            subst he
            rcases reconstruct_error_eq _ _ _ _ _ _ heq with ⟨n, hn⟩
            exact VerifyError.noConfusion hn
          next m heq =>
            by_cases h4 : E.length > 4
            · rw [if_pos h4] at hR
              simp at hR
            · rw [if_neg h4] at hR
              split at hR
              next e heq2 =>
                injection hR with he
                subst he
                exact VerifyError.noConfusion (date_ym_error_eq _ _ heq2)
              next d heq2 => simp at hR

lemma certificate_to_bigint_ok (l : List Nat) (h : l.length ≤ 248) :
    certificate_to_bigint l = .ok (beNat l) := by
  unfold certificate_to_bigint
  rw [if_neg (by omega)]

lemma beNat_foldl (a : Nat) (ys : List Nat) :
    ys.foldl (fun x b => x * 256 + b) a = a * 256 ^ ys.length + beNat ys := by
  induction ys generalizing a with
  | nil => simp [beNat]
  | cons y ys ih =>
    show (y :: ys).foldl (fun x b => x * 256 + b) a = _
    rw [List.foldl_cons, ih (a * 256 + y)]
    have hy : beNat (y :: ys) = y * 256 ^ ys.length + beNat ys := by
      show (y :: ys).foldl (fun x b => x * 256 + b) 0 = _
      rw [List.foldl_cons, ih (0 * 256 + y)]
      ring_nf
    rw [hy]
    simp [List.length_cons, pow_succ]
    ring

lemma beNat_append (xs ys : List Nat) :
    beNat (xs ++ ys) = beNat xs * 256 ^ ys.length + beNat ys := by
  show (xs ++ ys).foldl (fun x b => x * 256 + b) 0 = _
  rw [List.foldl_append]
  exact beNat_foldl _ ys

lemma beNat_lt_pow (l : List Nat) (h : ∀ b ∈ l, b < 256) : beNat l < 256 ^ l.length := by
  induction l with
  | nil => simp [beNat]
  | cons b bs ih =>
    have hb : beNat (b :: bs) = b * 256 ^ bs.length + beNat bs := by
      show (b :: bs).foldl (fun x c => x * 256 + c) 0 = _
      rw [List.foldl_cons, beNat_foldl (0 * 256 + b) bs]
      ring_nf
    rw [hb, List.length_cons]
    have h1 : beNat bs < 256 ^ bs.length := ih (fun x hx => h x (List.mem_cons_of_mem _ hx))
    have h2 : b < 256 := h b (List.mem_cons_self b bs)
    calc b * 256 ^ bs.length + beNat bs < (b + 1) * 256 ^ bs.length := by
          rw [Nat.add_mul, Nat.one_mul]
          omega
      _ ≤ 256 * 256 ^ bs.length := Nat.mul_le_mul_right _ (by omega)
      _ = 256 ^ (bs.length + 1) := by rw [pow_succ]; ring

lemma shl_or_beNat (s2 R : List Nat) (hbytes : ∀ b ∈ R, b < 256) (hlen : R.length ≤ 248) :
    u2048shl (beNat s2) (R.length * 8) ||| beNat R = beNat (s2 ++ R) % 2 ^ 2048 := by
  have hR : beNat R < 2 ^ (R.length * 8) := by
    have := beNat_lt_pow R hbytes
    calc beNat R < 256 ^ R.length := this
      _ = 2 ^ (R.length * 8) := by
          rw [show (256 : Nat) = 2 ^ 8 from rfl, ← pow_mul, Nat.mul_comm]
  unfold u2048shl
  rw [Nat.shiftLeft_eq, beNat_append,
    show (256 : Nat) ^ R.length = 2 ^ (R.length * 8) from by
      rw [show (256 : Nat) = 2 ^ 8 from rfl, ← pow_mul, Nat.mul_comm]]
  have hsplit : (2 : Nat) ^ 2048 = 2 ^ (2048 - R.length * 8) * 2 ^ (R.length * 8) := by
    rw [← pow_add]
    congr 1
    omega
  rw [hsplit, Nat.mul_mod_mul_right]
  rw [Nat.mul_comm (beNat s2 % 2 ^ (2048 - R.length * 8)) (2 ^ (R.length * 8)),
    ← Nat.mul_add_lt_is_or hR (beNat s2 % 2 ^ (2048 - R.length * 8))]
  generalize beNat s2 = a
  generalize hgr : beNat R = r
  rw [hgr] at hR
  generalize hgS : (2 : Nat) ^ (R.length * 8) = S
  generalize hgM : (2 : Nat) ^ (2048 - R.length * 8) = M
  rw [hgS] at hR
  have hS : 0 < S := hgS ▸ Nat.pos_pow_of_pos _ (by omega)
  have hM : 0 < M := hgM ▸ Nat.pos_pow_of_pos _ (by omega)
  -- goal: S * (a % M) + r = (a * S + r) % (M * S)
  have hrem : a % M < M := Nat.mod_lt a hM
  have hlt : a % M * S + r < M * S := by
    have h1 : a % M * S + r < (a % M + 1) * S := by
      rw [Nat.add_mul, Nat.one_mul]
      omega
    have h2 : (a % M + 1) * S ≤ M * S := Nat.mul_le_mul_right _ (by omega)
    omega
  have hdecomp : a * S + r = (a % M * S + r) + (a / M) * (M * S) := by
    have hdm := Nat.div_add_mod a M
    calc a * S + r = (M * (a / M) + a % M) * S + r := by rw [hdm]
      _ = (a % M * S + r) + (a / M) * (M * S) := by ring
  rw [hdecomp, Nat.add_mul_mod_self_right, Nat.mod_eq_of_lt hlt]
  ring

lemma issuer_unmatchedPAN_iff (caKeys : KeyId → Option KeyData) (rid : List Nat)
    (options : FieldMap) (index : Nat) (cert E pan : List Nat) (caKey : KeyData)
    (hidx : ((options.get 0x8f).bind Value.asBinary).bind List.head? = some index)
    (hcert : (options.get 0x90).bind Value.asBinary = some cert)
    (hexp : (options.get 0x9f32).bind Value.asBinary = some E)
    (hpan : (options.get 0x5a).bind Value.asDigitString = some pan)
    (hca : caKeys ⟨rid, index⟩ = some caKey)
    (hlen : modBytes caKey.modulus = cert.length)
    (hsize : cert.length ≤ 248)
    (hstruct : byteAt (recoverCert caKey.modulus caKey.exponent cert) 0 = 0x6a ∧
      byteAt (recoverCert caKey.modulus caKey.exponent cert) 1 = 0x02 ∧
      byteAt (recoverCert caKey.modulus caKey.exponent cert) 11 = 1 ∧
      byteAt (recoverCert caKey.modulus caKey.exponent cert) 12 = 1)
    (hhash : sha1 (byteSlice (recoverCert caKey.modulus caKey.exponent cert) 1
          (modBytes caKey.modulus - 21) ++
        ((options.get 0x92).bind Value.asBinary).getD [] ++ E) =
      byteSlice (recoverCert caKey.modulus caKey.exponent cert) (modBytes caKey.modulus - 21)
        (modBytes caKey.modulus - 1)) :
    (IssuerPublicKey.from_options caKeys rid options = .error .unmatchedPAN ↔
      ¬ ∃ iin, compressed_numeric (byteSlice (recoverCert caKey.modulus caKey.exponent cert) 2 6) =
          .ok iin ∧ iin.isPrefixOf pan = true) := by
  unfold IssuerPublicKey.from_options
  rw [hidx, hcert, hexp, hpan]
  dsimp only
  rw [hca]
  dsimp only
  rw [if_neg (by omega : ¬ modBytes caKey.modulus ≠ cert.length)]
  rw [certificate_to_bigint_ok cert hsize]
  dsimp only
  rw [show List.drop (256 - modBytes caKey.modulus)
      (natToBe 256 (beNat cert ^ caKey.exponent % caKey.modulus)) =
    recoverCert caKey.modulus caKey.exponent cert from rfl]
  rw [if_neg (by push_neg; exact hstruct), if_neg (not_not_intro hhash)]
  cases hcn : compressed_numeric (byteSlice (recoverCert caKey.modulus caKey.exponent cert) 2 6) with
  | error e =>
    refine iff_of_true rfl ?_
    rintro ⟨iin, hiin, -⟩
    exact Except.noConfusion hiin
  | ok iin =>
    dsimp only
    by_cases hpre : iin.isPrefixOf pan
    · rw [if_neg (not_not_intro hpre)]
      apply iff_of_false ?_ (not_not_intro ⟨iin, rfl, hpre⟩)
      intro hR
      split at hR
      next e heq =>
        injection hR with he
        subst he
        rcases reconstruct_error_eq _ _ _ _ _ _ heq with ⟨n, hn⟩
        exact VerifyError.noConfusion hn
      next m heq =>
        split at hR
        · simp at hR
        · split at hR
          next e heq2 =>
            injection hR with he
            subst he
            exact VerifyError.noConfusion (date_ym_error_eq _ _ heq2)
          next d heq2 => simp at hR
    · rw [if_pos hpre]
      refine iff_of_true rfl ?_
      rintro ⟨iin', hiin', hp⟩
      injection hiin' with he
      subst he
      exact hpre hp

lemma icc_unmatchedPAN_iff (issuer_key : IssuerPublicKey) (sda : List Nat)
    (options : FieldMap) (cert E pan : List Nat)
    (hcert : (options.get 0x9f46).bind Value.asBinary = some cert)
    (hexp : (options.get 0x9f47).bind Value.asBinary = some E)
    (hpan : (options.get 0x5a).bind Value.asDigitString = some pan)
    (hlen : modBytes issuer_key.modulus = cert.length)
    (hsize : cert.length ≤ 248)
    (hstruct : byteAt (recoverCert issuer_key.modulus issuer_key.exponent cert) 0 = 0x6a ∧
      byteAt (recoverCert issuer_key.modulus issuer_key.exponent cert) 1 = 0x04 ∧
      byteAt (recoverCert issuer_key.modulus issuer_key.exponent cert) 17 = 1 ∧
      byteAt (recoverCert issuer_key.modulus issuer_key.exponent cert) 18 = 1)
    (hhash : sha1 (byteSlice (recoverCert issuer_key.modulus issuer_key.exponent cert) 1
          (modBytes issuer_key.modulus - 21) ++
        ((options.get 0x9f48).bind Value.asBinary).getD [] ++ E ++ sda ++
        (if options.containsKey 0x9f4a then ((options.get 0x82).bind Value.asBinary).getD []
         else [])) =
      byteSlice (recoverCert issuer_key.modulus issuer_key.exponent cert)
        (modBytes issuer_key.modulus - 21) (modBytes issuer_key.modulus - 1)) :
    (ICCPublicKey.from_options issuer_key sda options = .error .unmatchedPAN ↔
      compressed_numeric (byteSlice (recoverCert issuer_key.modulus issuer_key.exponent cert) 2 12) ≠
        .ok pan) := by
  unfold ICCPublicKey.from_options
  rw [hcert, hexp, hpan]
  dsimp only
  rw [if_neg (by omega : ¬ modBytes issuer_key.modulus ≠ cert.length)]
  rw [certificate_to_bigint_ok cert hsize]
  dsimp only
  rw [show List.drop (256 - modBytes issuer_key.modulus)
      (natToBe 256 (beNat cert ^ issuer_key.exponent % issuer_key.modulus)) =
    recoverCert issuer_key.modulus issuer_key.exponent cert from rfl]
  rw [if_neg (by push_neg; exact hstruct), if_neg (not_not_intro hhash)]
  cases hcn : compressed_numeric
      (byteSlice (recoverCert issuer_key.modulus issuer_key.exponent cert) 2 12) with
  | error e =>
    refine iff_of_true rfl ?_
    simp
  | ok p =>
    dsimp only
    by_cases hq : p ≠ pan
    · rw [if_pos hq]
      refine iff_of_true rfl ?_
      simp [hq]
    · rw [if_neg hq]
      push_neg at hq
      subst hq
      apply iff_of_false ?_ (by simp)
      intro hR
      split at hR
      next e heq =>
        injection hR with he
        subst he
        rcases reconstruct_error_eq _ _ _ _ _ _ heq with ⟨n, hn⟩
        exact VerifyError.noConfusion hn
      next m heq =>
        split at hR
        · simp at hR
        · split at hR
          next e heq2 =>
            injection hR with he
            subst he
            exact VerifyError.noConfusion (date_ym_error_eq _ _ heq2)
          next d heq2 => simp at hR

lemma issuer_modulus_eq (caKeys : KeyId → Option KeyData) (rid : List Nat)
    (options : FieldMap) (index : Nat) (cert E pan : List Nat) (caKey : KeyData)
    (key : IssuerPublicKey)
    (hidx : ((options.get 0x8f).bind Value.asBinary).bind List.head? = some index)
    (hcert : (options.get 0x90).bind Value.asBinary = some cert)
    (hexp : (options.get 0x9f32).bind Value.asBinary = some E)
    (hpan : (options.get 0x5a).bind Value.asDigitString = some pan)
    (hca : caKeys ⟨rid, index⟩ = some caKey)
    (hlen : modBytes caKey.modulus = cert.length)
    (hsize : cert.length ≤ 248)
    (hRbytes : ∀ b ∈ ((options.get 0x92).bind Value.asBinary).getD [], b < 256)
    (hOk : IssuerPublicKey.from_options caKeys rid options = .ok key) :
    key.modulus =
      (if byteAt (recoverCert caKey.modulus caKey.exponent cert) 13 ≤ modBytes caKey.modulus - 36
       then beNat (byteSlice (recoverCert caKey.modulus caKey.exponent cert) 15
          (15 + byteAt (recoverCert caKey.modulus caKey.exponent cert) 13))
       else beNat (byteSlice (recoverCert caKey.modulus caKey.exponent cert) 15
            (modBytes caKey.modulus - 21) ++
          ((options.get 0x92).bind Value.asBinary).getD []) % 2 ^ 2048) := by
  unfold IssuerPublicKey.from_options at hOk
  rw [hidx, hcert, hexp, hpan] at hOk
  dsimp only at hOk
  rw [hca] at hOk
  dsimp only at hOk
  rw [if_neg (by omega : ¬ modBytes caKey.modulus ≠ cert.length)] at hOk
  rw [certificate_to_bigint_ok cert hsize] at hOk
  dsimp only at hOk
  rw [show List.drop (256 - modBytes caKey.modulus)
      (natToBe 256 (beNat cert ^ caKey.exponent % caKey.modulus)) =
    recoverCert caKey.modulus caKey.exponent cert from rfl] at hOk
  split at hOk
  · exact absurd hOk (by simp)
  split at hOk
  · exact absurd hOk (by simp)
  split at hOk
  next e heq => exact absurd hOk (by simp)
  next iin heq =>
    split at hOk
    · exact absurd hOk (by simp)
    split at hOk
    next e heq2 => exact absurd hOk (by simp)
    next m heq2 =>
      split at hOk
      · exact absurd hOk (by simp)
      split at hOk
      next e heq3 => exact absurd hOk (by simp)
      next d heq3 =>
        injection hOk with hk
        subst hk
        dsimp only
        split at heq2
        next hcond =>
          rw [if_pos hcond]
          rw [certificate_to_bigint_ok _ (by
            have := List.length_take (15 + byteAt (recoverCert caKey.modulus caKey.exponent cert) 13 - 15)
              ((recoverCert caKey.modulus caKey.exponent cert).drop 15)
            simp only [byteSlice]
            rw [List.length_take]
            omega)] at heq2
          injection heq2 with hm
          exact hm.symm
        next hcond =>
          rw [if_neg hcond]
          cases hc2 : certificate_to_bigint (byteSlice (recoverCert caKey.modulus caKey.exponent cert)
              15 (modBytes caKey.modulus - 21)) with
          | error e2 =>
            rw [hc2] at heq2
            exact Except.noConfusion heq2
          | ok hi =>
            rw [hc2] at heq2
            dsimp only at heq2
            cases hc3 : certificate_to_bigint (((options.get 0x92).bind Value.asBinary).getD []) with
            | error e3 =>
              rw [hc3] at heq2
              exact Except.noConfusion heq2
            | ok lo =>
              rw [hc3] at heq2
              dsimp only at heq2
              injection heq2 with hm
              unfold certificate_to_bigint at hc2 hc3
              split at hc2
              · exact absurd hc2 (by simp)
              split at hc3
              next hR248 => exact absurd hc3 (by simp)
              next hR248 =>
                injection hc2 with hhi
                injection hc3 with hlo
                rw [← hm, ← hhi, ← hlo]
                exact shl_or_beNat _ _ hRbytes (by omega)

lemma icc_modulus_eq (issuer_key : IssuerPublicKey) (sda : List Nat)
    (options : FieldMap) (cert E pan : List Nat) (key : ICCPublicKey)
    (hcert : (options.get 0x9f46).bind Value.asBinary = some cert)
    (hexp : (options.get 0x9f47).bind Value.asBinary = some E)
    (hpan : (options.get 0x5a).bind Value.asDigitString = some pan)
    (hlen : modBytes issuer_key.modulus = cert.length)
    (hsize : cert.length ≤ 248)
    (hRbytes : ∀ b ∈ ((options.get 0x9f48).bind Value.asBinary).getD [], b < 256)
    (hOk : ICCPublicKey.from_options issuer_key sda options = .ok key) :
    key.modulus =
      (if byteAt (recoverCert issuer_key.modulus issuer_key.exponent cert) 19 ≤
          modBytes issuer_key.modulus - 42
       then beNat (byteSlice (recoverCert issuer_key.modulus issuer_key.exponent cert) 21
          (21 + byteAt (recoverCert issuer_key.modulus issuer_key.exponent cert) 19))
       else beNat (byteSlice (recoverCert issuer_key.modulus issuer_key.exponent cert) 21
            (modBytes issuer_key.modulus - 21) ++
          ((options.get 0x9f48).bind Value.asBinary).getD []) % 2 ^ 2048) := by
  unfold ICCPublicKey.from_options at hOk
  rw [hcert, hexp, hpan] at hOk
  dsimp only at hOk
  rw [if_neg (by omega : ¬ modBytes issuer_key.modulus ≠ cert.length)] at hOk
  rw [certificate_to_bigint_ok cert hsize] at hOk
  dsimp only at hOk
  rw [show List.drop (256 - modBytes issuer_key.modulus)
      (natToBe 256 (beNat cert ^ issuer_key.exponent % issuer_key.modulus)) =
    recoverCert issuer_key.modulus issuer_key.exponent cert from rfl] at hOk
  generalize (if options.containsKey 0x9f4a = true
      then ((options.get 0x82).bind Value.asBinary).getD [] else ([] : List Nat)) = aipExtra at hOk
  split at hOk
  · exact absurd hOk (by simp)
  split at hOk
  · exact absurd hOk (by simp)
  split at hOk
  next e heq => exact absurd hOk (by simp)
  next p heq =>
    split at hOk
    · exact absurd hOk (by simp)
    split at hOk
    next e heq2 => exact absurd hOk (by simp)
    next m heq2 =>
      split at hOk
      · exact absurd hOk (by simp)
      split at hOk
      next e heq3 => exact absurd hOk (by simp)
      next d heq3 =>
        injection hOk with hk
        subst hk
        dsimp only
        split at heq2
        next hcond =>
          rw [if_pos hcond]
          rw [certificate_to_bigint_ok _ (by
            simp only [byteSlice]
            rw [List.length_take]
            omega)] at heq2
          injection heq2 with hm
          exact hm.symm
        next hcond =>
          rw [if_neg hcond]
          cases hc2 : certificate_to_bigint (byteSlice
              (recoverCert issuer_key.modulus issuer_key.exponent cert) 21
              (modBytes issuer_key.modulus - 21)) with
          | error e2 =>
            rw [hc2] at heq2
            exact Except.noConfusion heq2
          | ok hi =>
            rw [hc2] at heq2
            dsimp only at heq2
            cases hc3 : certificate_to_bigint (((options.get 0x9f48).bind Value.asBinary).getD []) with
            | error e3 =>
              rw [hc3] at heq2
              exact Except.noConfusion heq2
            | ok lo =>
              rw [hc3] at heq2
              dsimp only at heq2
              injection heq2 with hm
              unfold certificate_to_bigint at hc2 hc3
              split at hc2
              · exact absurd hc2 (by simp)
              split at hc3
              next hR248 => exact absurd hc3 (by simp)
              next hR248 =>
                injection hc2 with hhi
                injection hc3 with hlo
                rw [← hm, ← hhi, ← hlo]
                exact shl_or_beNat _ _ hRbytes (by omega)


/-- **C1** counterexample.  A fully successful issuer verification
(`issuerOptionsOk` against the 36-byte test CA key) whose recovered
certificate's trailer byte (offset `k - 1`) is `0x00`, not `0xBC`, and whose
two bytes *after* the embedded modulus-length byte (offsets 14 and 15) are not
`0x01 0x01`: neither is checked by the code, refuting the claim that `Ok`
implies both. -/
theorem claimC1_counterexample :
    (IssuerPublicKey.from_options caKeys36 caRid issuerOptionsOk).isOk = true ∧
    byteAt (recoverCert caMod36 1 issuerCert36) (modBytes caMod36 - 1) ≠ 0xbc ∧
    ¬(byteAt (recoverCert caMod36 1 issuerCert36) 14 = 0x01 ∧
      byteAt (recoverCert caMod36 1 issuerCert36) 15 = 0x01) := by
  refine ⟨by decide, by decide, by decide⟩

/-- **C1** (amended).  Under the preconditions that bring control to the
recovery step (tags present, CA/parent key found, certificate length equal to
the parent-modulus byte length `k`, certificate at most 248 bytes),
verification returns `InvalidSignature` exactly when the structural check or
the SHA-1 check fails, where the structural check demands: first recovered byte
`0x6A`, format byte `0x02` (Issuer) or `0x04` (ICC) at offset 1, and the two
bytes `0x01 0x01` immediately *preceding* the embedded modulus-length byte
(offsets 11/12 for Issuer, 17/18 for ICC); and the SHA-1 check compares the 20
bytes at `k - 21 .. k - 1` with SHA-1 of recovered bytes `1 .. k - 21` followed
by the remainder bytes, the exponent bytes, and (for ICC) the static
authentication data plus the AIP when tag `0x9F4A` is present.  The trailer
byte (`0xBC` in conforming certificates) is not checked. -/
theorem claimC1_recovered_certificate_checks :
    (∀ (caKeys : KeyId → Option KeyData) (rid : List Nat) (options : FieldMap)
       (index : Nat) (cert E pan : List Nat) (caKey : KeyData),
      ((options.get 0x8f).bind Value.asBinary).bind List.head? = some index →
      (options.get 0x90).bind Value.asBinary = some cert →
      (options.get 0x9f32).bind Value.asBinary = some E →
      (options.get 0x5a).bind Value.asDigitString = some pan →
      caKeys ⟨rid, index⟩ = some caKey →
      modBytes caKey.modulus = cert.length →
      cert.length ≤ 248 →
      (IssuerPublicKey.from_options caKeys rid options = .error .invalidSignature ↔
        ¬(byteAt (recoverCert caKey.modulus caKey.exponent cert) 0 = 0x6a ∧
          byteAt (recoverCert caKey.modulus caKey.exponent cert) 1 = 0x02 ∧
          byteAt (recoverCert caKey.modulus caKey.exponent cert) 11 = 1 ∧
          byteAt (recoverCert caKey.modulus caKey.exponent cert) 12 = 1 ∧
          sha1 (byteSlice (recoverCert caKey.modulus caKey.exponent cert) 1
              (modBytes caKey.modulus - 21) ++
              ((options.get 0x92).bind Value.asBinary).getD [] ++ E) =
            byteSlice (recoverCert caKey.modulus caKey.exponent cert)
              (modBytes caKey.modulus - 21) (modBytes caKey.modulus - 1)))) ∧
    (∀ (issuer_key : IssuerPublicKey) (sda : List Nat) (options : FieldMap)
       (cert E pan : List Nat),
      (options.get 0x9f46).bind Value.asBinary = some cert →
      (options.get 0x9f47).bind Value.asBinary = some E →
      (options.get 0x5a).bind Value.asDigitString = some pan →
      modBytes issuer_key.modulus = cert.length →
      cert.length ≤ 248 →
      (ICCPublicKey.from_options issuer_key sda options = .error .invalidSignature ↔
        ¬(byteAt (recoverCert issuer_key.modulus issuer_key.exponent cert) 0 = 0x6a ∧
          byteAt (recoverCert issuer_key.modulus issuer_key.exponent cert) 1 = 0x04 ∧
          byteAt (recoverCert issuer_key.modulus issuer_key.exponent cert) 17 = 1 ∧
          byteAt (recoverCert issuer_key.modulus issuer_key.exponent cert) 18 = 1 ∧
          sha1 (byteSlice (recoverCert issuer_key.modulus issuer_key.exponent cert) 1
                (modBytes issuer_key.modulus - 21) ++
              ((options.get 0x9f48).bind Value.asBinary).getD [] ++ E ++ sda ++
              (if options.containsKey 0x9f4a then
                ((options.get 0x82).bind Value.asBinary).getD [] else [])) =
            byteSlice (recoverCert issuer_key.modulus issuer_key.exponent cert)
              (modBytes issuer_key.modulus - 21) (modBytes issuer_key.modulus - 1)))) :=
  ⟨fun caKeys rid options index cert E pan caKey hidx hcert hexp hpan hca hlen hsize =>
      issuer_invalidSignature_iff caKeys rid options index cert E pan caKey
        hidx hcert hexp hpan hca hlen hsize,
   fun issuer_key sda options cert E pan hcert hexp hpan hlen hsize =>
      icc_invalidSignature_iff issuer_key sda options cert E pan hcert hexp hpan hlen hsize⟩

theorem claimC1_witness :
    (((issuerOptionsBadFormat.get 0x90).bind Value.asBinary = some issuerCertBad ∧
        caKeys36 ⟨caRid, 0x05⟩ = some caKeyData36 ∧
        modBytes caKeyData36.modulus = issuerCertBad.length) ∧
      (IssuerPublicKey.from_options caKeys36 caRid issuerOptionsBadFormat =
          .error .invalidSignature ↔
        ¬(byteAt (recoverCert caKeyData36.modulus caKeyData36.exponent issuerCertBad) 0 = 0x6a ∧
          byteAt (recoverCert caKeyData36.modulus caKeyData36.exponent issuerCertBad) 1 = 0x02 ∧
          byteAt (recoverCert caKeyData36.modulus caKeyData36.exponent issuerCertBad) 11 = 1 ∧
          byteAt (recoverCert caKeyData36.modulus caKeyData36.exponent issuerCertBad) 12 = 1 ∧
          sha1 (byteSlice (recoverCert caKeyData36.modulus caKeyData36.exponent issuerCertBad) 1
              (modBytes caKeyData36.modulus - 21) ++
              ((issuerOptionsBadFormat.get 0x92).bind Value.asBinary).getD [] ++ [0x03]) =
            byteSlice (recoverCert caKeyData36.modulus caKeyData36.exponent issuerCertBad)
              (modBytes caKeyData36.modulus - 21) (modBytes caKeyData36.modulus - 1)))) ∧
    (ICCPublicKey.from_options issuerKey43 [] iccOptionsBadFormat = .error .invalidSignature ↔
      ¬(byteAt (recoverCert issuerKey43.modulus issuerKey43.exponent iccCertBad) 0 = 0x6a ∧
        byteAt (recoverCert issuerKey43.modulus issuerKey43.exponent iccCertBad) 1 = 0x04 ∧
        byteAt (recoverCert issuerKey43.modulus issuerKey43.exponent iccCertBad) 17 = 1 ∧
        byteAt (recoverCert issuerKey43.modulus issuerKey43.exponent iccCertBad) 18 = 1 ∧
        sha1 (byteSlice (recoverCert issuerKey43.modulus issuerKey43.exponent iccCertBad) 1
            (modBytes issuerKey43.modulus - 21) ++
            ((iccOptionsBadFormat.get 0x9f48).bind Value.asBinary).getD [] ++ [0x03] ++ [] ++
            (if iccOptionsBadFormat.containsKey 0x9f4a then
              ((iccOptionsBadFormat.get 0x82).bind Value.asBinary).getD [] else [])) =
          byteSlice (recoverCert issuerKey43.modulus issuerKey43.exponent iccCertBad)
            (modBytes issuerKey43.modulus - 21) (modBytes issuerKey43.modulus - 1))) :=
  ⟨⟨⟨by decide, by decide, by decide⟩,
    claimC1_recovered_certificate_checks.1 caKeys36 caRid issuerOptionsBadFormat 0x05
      issuerCertBad [0x03] [1, 2, 3, 4, 5, 6] caKeyData36
      (by decide) (by decide) (by decide) (by decide) (by decide) (by decide) (by decide)⟩,
   claimC1_recovered_certificate_checks.2 issuerKey43 [] iccOptionsBadFormat
     iccCertBad [0x03] [1] (by decide) (by decide) (by decide) (by decide) (by decide)⟩


/-- **C3** (confirmed).  Under the preconditions that bring control past the
structural and SHA-1 checks, verification fails with `UnmatchedPAN` exactly
unless the PAN binding holds: for an Issuer certificate the 4 recovered IIN
bytes (offsets 2..5) must decode as a digit string whose digits are a prefix of
the card-reported PAN; for an ICC certificate the 10 recovered PAN bytes
(offsets 2..11) must decode to exactly the card-reported PAN.  A decode failure
(bad BCD nibble) also yields `UnmatchedPAN`; decoding stops at the first `0xF`
pad nibble, so the comparisons ignore the `0xF` padding. -/
theorem claimC3_pan_binding :
    (∀ (caKeys : KeyId → Option KeyData) (rid : List Nat) (options : FieldMap)
       (index : Nat) (cert E pan : List Nat) (caKey : KeyData),
      ((options.get 0x8f).bind Value.asBinary).bind List.head? = some index →
      (options.get 0x90).bind Value.asBinary = some cert →
      (options.get 0x9f32).bind Value.asBinary = some E →
      (options.get 0x5a).bind Value.asDigitString = some pan →
      caKeys ⟨rid, index⟩ = some caKey →
      modBytes caKey.modulus = cert.length →
      cert.length ≤ 248 →
      (byteAt (recoverCert caKey.modulus caKey.exponent cert) 0 = 0x6a ∧
        byteAt (recoverCert caKey.modulus caKey.exponent cert) 1 = 0x02 ∧
        byteAt (recoverCert caKey.modulus caKey.exponent cert) 11 = 1 ∧
        byteAt (recoverCert caKey.modulus caKey.exponent cert) 12 = 1) →
      sha1 (byteSlice (recoverCert caKey.modulus caKey.exponent cert) 1
          (modBytes caKey.modulus - 21) ++
          ((options.get 0x92).bind Value.asBinary).getD [] ++ E) =
        byteSlice (recoverCert caKey.modulus caKey.exponent cert)
          (modBytes caKey.modulus - 21) (modBytes caKey.modulus - 1) →
      (IssuerPublicKey.from_options caKeys rid options = .error .unmatchedPAN ↔
        ¬ ∃ iin, compressed_numeric
            (byteSlice (recoverCert caKey.modulus caKey.exponent cert) 2 6) = .ok iin ∧
          iin.isPrefixOf pan = true)) ∧
    (∀ (issuer_key : IssuerPublicKey) (sda : List Nat) (options : FieldMap)
       (cert E pan : List Nat),
      (options.get 0x9f46).bind Value.asBinary = some cert →
      (options.get 0x9f47).bind Value.asBinary = some E →
      (options.get 0x5a).bind Value.asDigitString = some pan →
      modBytes issuer_key.modulus = cert.length →
      cert.length ≤ 248 →
      (byteAt (recoverCert issuer_key.modulus issuer_key.exponent cert) 0 = 0x6a ∧
        byteAt (recoverCert issuer_key.modulus issuer_key.exponent cert) 1 = 0x04 ∧
        byteAt (recoverCert issuer_key.modulus issuer_key.exponent cert) 17 = 1 ∧
        byteAt (recoverCert issuer_key.modulus issuer_key.exponent cert) 18 = 1) →
      sha1 (byteSlice (recoverCert issuer_key.modulus issuer_key.exponent cert) 1
          (modBytes issuer_key.modulus - 21) ++
          ((options.get 0x9f48).bind Value.asBinary).getD [] ++ E ++ sda ++
          (if options.containsKey 0x9f4a then
            ((options.get 0x82).bind Value.asBinary).getD [] else [])) =
        byteSlice (recoverCert issuer_key.modulus issuer_key.exponent cert)
          (modBytes issuer_key.modulus - 21) (modBytes issuer_key.modulus - 1) →
      (ICCPublicKey.from_options issuer_key sda options = .error .unmatchedPAN ↔
        compressed_numeric
          (byteSlice (recoverCert issuer_key.modulus issuer_key.exponent cert) 2 12) ≠
          .ok pan)) :=
  ⟨fun caKeys rid options index cert E pan caKey hidx hcert hexp hpan hca hlen hsize hstruct
      hhash => issuer_unmatchedPAN_iff caKeys rid options index cert E pan caKey
        hidx hcert hexp hpan hca hlen hsize hstruct hhash,
   fun issuer_key sda options cert E pan hcert hexp hpan hlen hsize hstruct hhash =>
      icc_unmatchedPAN_iff issuer_key sda options cert E pan hcert hexp hpan hlen hsize
        hstruct hhash⟩

theorem claimC3_witness :
    ((((issuerOptionsBadPan.get 0x5a).bind Value.asDigitString = some [9, 9]) ∧
        modBytes caKeyData36.modulus = issuerCert36.length) ∧
      (IssuerPublicKey.from_options caKeys36 caRid issuerOptionsBadPan =
          .error .unmatchedPAN ↔
        ¬ ∃ iin, compressed_numeric
            (byteSlice (recoverCert caKeyData36.modulus caKeyData36.exponent issuerCert36) 2 6) =
            .ok iin ∧ iin.isPrefixOf [9, 9] = true)) ∧
    (ICCPublicKey.from_options issuerKey43 [] iccOptionsBadPan = .error .unmatchedPAN ↔
      compressed_numeric
        (byteSlice (recoverCert issuerKey43.modulus issuerKey43.exponent iccCert43) 2 12) ≠
        .ok [1]) :=
  ⟨⟨⟨by decide, by decide⟩,
    claimC3_pan_binding.1 caKeys36 caRid issuerOptionsBadPan 0x05 issuerCert36 [0x03] [9, 9]
      caKeyData36 (by decide) (by decide) (by decide) (by decide) (by decide) (by decide)
      (by decide) (by decide) (by decide)⟩,
   claimC3_pan_binding.2 issuerKey43 [] iccOptionsBadPan iccCert43 [0x03] [1]
     (by decide) (by decide) (by decide) (by decide) (by decide) (by decide) (by decide)⟩

/-- **C4** counterexample.  A successful issuer verification (45-byte parent
modulus, declared child-modulus length 10 exceeding `45 - 36 = 9`, a 248-byte
remainder) whose returned modulus is *not* the big-endian integer of the
payload tail concatenated with the remainder: that integer needs 2056 bits and
the `U2048` shift truncates its leading byte, so the claim's untruncated
reading fails. -/
theorem claimC4_counterexample :
    (IssuerPublicKey.from_options caKeys45 caRid issuerOptions45).isOk = true ∧
    (IssuerPublicKey.from_options caKeys45 caRid issuerOptions45).map IssuerPublicKey.modulus ≠
      .ok (beNat (byteSlice (recoverCert caMod45 1 issuerCert45) 15 (modBytes caMod45 - 21) ++
        issuerRemainder248)) ∧
    ¬ byteAt (recoverCert caMod45 1 issuerCert45) 13 ≤ modBytes caMod45 - 36 := by
  refine ⟨by decide, by decide, by decide⟩

/-- **C4** (amended).  For a verification returning `Ok`, with `k` the
parent-modulus byte length and the declared child-modulus length `L` read at
offset `9 + pan_len` (13 for Issuer, 19 for ICC): if `L ≤ k - 32 - pan_len`
(that is, `k - 36` / `k - 42`) the child modulus is the big-endian integer of
`recovered[11 + pan_len .. 11 + pan_len + L]`; otherwise it is the big-endian
integer of `recovered[11 + pan_len .. k - 21]` concatenated with the supplied
remainder bytes, reduced modulo `2 ^ 2048` (the `U2048` container
leading-truncates an overlong reconstruction). -/
theorem claimC4_child_modulus :
    (∀ (caKeys : KeyId → Option KeyData) (rid : List Nat) (options : FieldMap)
       (index : Nat) (cert E pan : List Nat) (caKey : KeyData) (key : IssuerPublicKey),
      ((options.get 0x8f).bind Value.asBinary).bind List.head? = some index →
      (options.get 0x90).bind Value.asBinary = some cert →
      (options.get 0x9f32).bind Value.asBinary = some E →
      (options.get 0x5a).bind Value.asDigitString = some pan →
      caKeys ⟨rid, index⟩ = some caKey →
      modBytes caKey.modulus = cert.length →
      cert.length ≤ 248 →
      (∀ b ∈ ((options.get 0x92).bind Value.asBinary).getD [], b < 256) →
      IssuerPublicKey.from_options caKeys rid options = .ok key →
      key.modulus =
        (if byteAt (recoverCert caKey.modulus caKey.exponent cert) 13 ≤
            modBytes caKey.modulus - 36
         then beNat (byteSlice (recoverCert caKey.modulus caKey.exponent cert) 15
            (15 + byteAt (recoverCert caKey.modulus caKey.exponent cert) 13))
         else beNat (byteSlice (recoverCert caKey.modulus caKey.exponent cert) 15
              (modBytes caKey.modulus - 21) ++
            ((options.get 0x92).bind Value.asBinary).getD []) % 2 ^ 2048)) ∧
    (∀ (issuer_key : IssuerPublicKey) (sda : List Nat) (options : FieldMap)
       (cert E pan : List Nat) (key : ICCPublicKey),
      (options.get 0x9f46).bind Value.asBinary = some cert →
      (options.get 0x9f47).bind Value.asBinary = some E →
      (options.get 0x5a).bind Value.asDigitString = some pan →
      modBytes issuer_key.modulus = cert.length →
      cert.length ≤ 248 →
      (∀ b ∈ ((options.get 0x9f48).bind Value.asBinary).getD [], b < 256) →
      ICCPublicKey.from_options issuer_key sda options = .ok key →
      key.modulus =
        (if byteAt (recoverCert issuer_key.modulus issuer_key.exponent cert) 19 ≤
            modBytes issuer_key.modulus - 42
         then beNat (byteSlice (recoverCert issuer_key.modulus issuer_key.exponent cert) 21
            (21 + byteAt (recoverCert issuer_key.modulus issuer_key.exponent cert) 19))
         else beNat (byteSlice (recoverCert issuer_key.modulus issuer_key.exponent cert) 21
              (modBytes issuer_key.modulus - 21) ++
            ((options.get 0x9f48).bind Value.asBinary).getD []) % 2 ^ 2048)) :=
  ⟨fun caKeys rid options index cert E pan caKey key hidx hcert hexp hpan hca hlen hsize
      hRbytes hOk => issuer_modulus_eq caKeys rid options index cert E pan caKey key
        hidx hcert hexp hpan hca hlen hsize hRbytes hOk,
   fun issuer_key sda options cert E pan key hcert hexp hpan hlen hsize hRbytes hOk =>
      icc_modulus_eq issuer_key sda options cert E pan key hcert hexp hpan hlen hsize
        hRbytes hOk⟩

theorem claimC4_witness :
    ((IssuerPublicKey.from_options caKeys36 caRid issuerOptionsOk =
        .ok ⟨[1, 2, 3, 4], ⟨2024, 12, 31⟩, [0, 0, 1], 3, 0⟩) ∧
      (IssuerPublicKey.mk [1, 2, 3, 4] ⟨2024, 12, 31⟩ [0, 0, 1] 3 0).modulus =
        (if byteAt (recoverCert caKeyData36.modulus caKeyData36.exponent issuerCert36) 13 ≤
            modBytes caKeyData36.modulus - 36
         then beNat (byteSlice (recoverCert caKeyData36.modulus caKeyData36.exponent issuerCert36)
            15 (15 + byteAt (recoverCert caKeyData36.modulus caKeyData36.exponent issuerCert36) 13))
         else beNat (byteSlice (recoverCert caKeyData36.modulus caKeyData36.exponent issuerCert36)
              15 (modBytes caKeyData36.modulus - 21) ++
            ((issuerOptionsOk.get 0x92).bind Value.asBinary).getD []) % 2 ^ 2048)) ∧
    (ICCPublicKey.mk [1, 2, 3, 4, 5, 6, 7, 8, 9, 0, 1, 2, 3, 4, 5] ⟨2024, 12, 31⟩ [0, 0, 2] 3
        0).modulus =
      (if byteAt (recoverCert issuerKey43.modulus issuerKey43.exponent iccCert43) 19 ≤
          modBytes issuerKey43.modulus - 42
       then beNat (byteSlice (recoverCert issuerKey43.modulus issuerKey43.exponent iccCert43) 21
          (21 + byteAt (recoverCert issuerKey43.modulus issuerKey43.exponent iccCert43) 19))
       else beNat (byteSlice (recoverCert issuerKey43.modulus issuerKey43.exponent iccCert43) 21
            (modBytes issuerKey43.modulus - 21) ++
          ((iccOptionsOk.get 0x9f48).bind Value.asBinary).getD []) % 2 ^ 2048) :=
  ⟨⟨by decide,
    claimC4_child_modulus.1 caKeys36 caRid issuerOptionsOk 0x05 issuerCert36 [0x03]
      [1, 2, 3, 4, 5, 6] caKeyData36 ⟨[1, 2, 3, 4], ⟨2024, 12, 31⟩, [0, 0, 1], 3, 0⟩
      (by decide) (by decide) (by decide) (by decide) (by decide) (by decide) (by decide)
      (by decide) (by decide)⟩,
   claimC4_child_modulus.2 issuerKey43 [] iccOptionsOk iccCert43 [0x03]
     [1, 2, 3, 4, 5, 6, 7, 8, 9, 0, 1, 2, 3, 4, 5]
     ⟨[1, 2, 3, 4, 5, 6, 7, 8, 9, 0, 1, 2, 3, 4, 5], ⟨2024, 12, 31⟩, [0, 0, 2], 3, 0⟩
     (by decide) (by decide) (by decide) (by decide) (by decide) (by decide) (by decide)⟩

/-! ### Exchange state machine (C6) -/

lemma rawResponse_length (r : List Nat × Nat × Nat) : (rawResponse r).length = r.1.length + 2 := by
  simp [rawResponse]

lemma rawResponse_body (r : List Nat × Nat × Nat) :
    (rawResponse r).take ((rawResponse r).length - 2) = r.1 := by
  rw [rawResponse_length]
  show (r.1 ++ [r.2.1, r.2.2]).take (r.1.length + 2 - 2) = r.1
  rw [Nat.add_sub_cancel]
  exact List.take_left r.1 _

lemma rawResponse_sw1 (r : List Nat × Nat × Nat) :
    byteAt (rawResponse r) ((rawResponse r).length - 2) = r.2.1 := by
  rw [rawResponse_length]
  show byteAt (r.1 ++ [r.2.1, r.2.2]) (r.1.length + 2 - 2) = r.2.1
  rw [Nat.add_sub_cancel]
  simp [byteAt, List.getD, List.getElem?_append_right (le_refl r.1.length)]

lemma rawResponse_sw2 (r : List Nat × Nat × Nat) :
    byteAt (rawResponse r) ((rawResponse r).length - 1) = r.2.2 := by
  rw [rawResponse_length]
  show byteAt (r.1 ++ [r.2.1, r.2.2]) (r.1.length + 2 - 1) = r.2.2
  have h : r.1.length + 2 - 1 = r.1.length + 1 := by omega
  rw [h]
  simp [byteAt, List.getD]
  rw [List.getElem_append_right (by omega)]
  simp

lemma rawResponse_not_short (r : List Nat × Nat × Nat) : ¬ (rawResponse r).length < 2 := by
  rw [rawResponse_length]
  omega

lemma specCont_exchangeLoop (rs : List (List Nat × Nat × Nat)) :
    ∀ (acc : List Nat) (s1 s2 : Nat) (out : List Nat × Nat × List (List Nat)),
      specCont acc s1 s2 rs = some out →
      exchangeLoop acc s1 s2 (rs.map rawResponse) = (.ok out.1 out.2.1, out.2.2) := by
  induction rs with
  | nil =>
    intro acc s1 s2 out h
    unfold specCont at h
    by_cases h61 : s1 = 0x61
    · rw [if_pos h61] at h
      exact Option.noConfusion h
    · rw [if_neg h61] at h
      injection h with h'
      simp only [List.map_nil]
      unfold exchangeLoop
      rw [if_neg h61, ← h']
  | cons r rest ih =>
    intro acc s1 s2 out h
    unfold specCont at h
    simp only [List.map_cons]
    unfold exchangeLoop
    by_cases h61 : s1 = 0x61
    · rw [if_pos h61] at h
      rw [if_pos h61]
      rw [if_neg (rawResponse_not_short r)]
      obtain ⟨r', hr', hout⟩ : ∃ r', specCont (acc ++ r.1) r.2.1 r.2.2 rest = some r' ∧
          out = (r'.1, r'.2.1, getResponseFrame s2 :: r'.2.2) := by
        cases hsc : specCont (acc ++ r.1) r.2.1 r.2.2 rest with
        | none => rw [hsc] at h; exact Option.noConfusion h
        | some r' =>
          rw [hsc] at h
          injection h with h'
          exact ⟨r', rfl, h'.symm⟩
      rw [rawResponse_body, rawResponse_sw1, rawResponse_sw2]
      rw [ih (acc ++ r.1) r.2.1 r.2.2 r' hr', hout]
    · rw [if_neg h61] at h
      rw [if_neg h61]
      injection h with h'
      rw [← h']

/-- **C6** (confirmed).  The byte-level `exchange` implements the claim's state
machine over an oracle of (body, SW1, SW2) responses: on a first response with
SW1 = 0x6C the same command is reissued with `Ne := SW2`; while the latest
response has SW1 = 0x61 a GET RESPONSE frame `00 C0 00 00 SW2` is transmitted;
all bodies are appended in order and the first non-continuation response
terminates with status `SW1 << 8 ||| SW2`.  `exchangeSpec` is the spec-side
machine written from the claim; the theorem says `exchange`, fed the raw
concatenated `body ++ [SW1, SW2]` responses, returns exactly the spec result
and transmits exactly the spec's frames. -/
theorem claimC6_exchange_machine (cmd : ADPUCommand) (resps : List (List Nat × Nat × Nat))
    (out : List Nat × Nat × List (List Nat))
    (h : exchangeSpec cmd resps = some out) :
    exchange cmd (resps.map rawResponse) = (.ok out.1 out.2.1, out.2.2) := by
  cases resps with
  | nil => exact Option.noConfusion h
  | cons r rest =>
    obtain ⟨b0, s1, s2⟩ := r
    unfold exchangeSpec at h
    simp only [List.map_cons]
    unfold exchange
    cases henc : cmd.encode with
    | none =>
      rw [henc] at h
      exact Option.noConfusion h
    | some frame =>
      rw [henc] at h
      dsimp only at h
      dsimp only
      rw [if_neg (rawResponse_not_short (b0, s1, s2)), rawResponse_body (b0, s1, s2),
        rawResponse_sw1 (b0, s1, s2), rawResponse_sw2 (b0, s1, s2)]
      by_cases h6c : s1 = 0x6c
      · rw [if_pos h6c] at h ⊢
        cases henc2 : ADPUCommand.encode { cmd with ne := s2 } with
        | none =>
          rw [henc2] at h
          exact Option.noConfusion h
        | some frame2 =>
          rw [henc2] at h
          dsimp only at h
          cases rest with
          | nil => exact Option.noConfusion h
          | cons r1 rest2 =>
            obtain ⟨b1, s1', s2'⟩ := r1
            dsimp only at h
            simp only [List.map_cons]
            rw [if_neg (rawResponse_not_short (b1, s1', s2')), rawResponse_body (b1, s1', s2'),
              rawResponse_sw1 (b1, s1', s2'), rawResponse_sw2 (b1, s1', s2')]
            obtain ⟨r', hr', hout⟩ : ∃ r', specCont (b0 ++ b1) s1' s2' rest2 = some r' ∧
                out = (r'.1, r'.2.1, frame :: frame2 :: r'.2.2) := by
              cases hsc : specCont (b0 ++ b1) s1' s2' rest2 with
              | none => rw [hsc] at h; exact Option.noConfusion h
              | some r' =>
                rw [hsc] at h
                injection h with h'
                exact ⟨r', rfl, h'.symm⟩
            rw [specCont_exchangeLoop rest2 (b0 ++ b1) s1' s2' r' hr', hout]
      · rw [if_neg h6c] at h ⊢
        obtain ⟨r', hr', hout⟩ : ∃ r', specCont b0 s1 s2 rest = some r' ∧
            out = (r'.1, r'.2.1, frame :: r'.2.2) := by
          cases hsc : specCont b0 s1 s2 rest with
          | none => rw [hsc] at h; exact Option.noConfusion h
          | some r' =>
            rw [hsc] at h
            injection h with h'
            exact ⟨r', rfl, h'.symm⟩
        rw [specCont_exchangeLoop rest b0 s1 s2 r' hr', hout]

theorem claimC6_witness :
    exchangeSpec ⟨0x00, 0xa4, 0x04, 0x00, [0x31], 256⟩
        [([0xaa], 0x6c, 0x10), ([0xbb, 0xcc], 0x61, 0x05), ([0xdd], 0x90, 0x00)] =
      some ([0xaa, 0xbb, 0xcc, 0xdd], 0x9000,
        [[0x00, 0xa4, 0x04, 0x00, 0x01, 0x31, 0x00], [0x00, 0xa4, 0x04, 0x00, 0x01, 0x31, 0x10],
         [0x00, 0xc0, 0x00, 0x00, 0x05]]) ∧
    exchange ⟨0x00, 0xa4, 0x04, 0x00, [0x31], 256⟩
        [[0xaa, 0x6c, 0x10], [0xbb, 0xcc, 0x61, 0x05], [0xdd, 0x90, 0x00]] =
      (.ok [0xaa, 0xbb, 0xcc, 0xdd] 0x9000,
        [[0x00, 0xa4, 0x04, 0x00, 0x01, 0x31, 0x00], [0x00, 0xa4, 0x04, 0x00, 0x01, 0x31, 0x10],
         [0x00, 0xc0, 0x00, 0x00, 0x05]]) :=
  ⟨by decide,
   claimC6_exchange_machine ⟨0x00, 0xa4, 0x04, 0x00, [0x31], 256⟩
     [([0xaa], 0x6c, 0x10), ([0xbb, 0xcc], 0x61, 0x05), ([0xdd], 0x90, 0x00)]
     ([0xaa, 0xbb, 0xcc, 0xdd], 0x9000,
       [[0x00, 0xa4, 0x04, 0x00, 0x01, 0x31, 0x00], [0x00, 0xa4, 0x04, 0x00, 0x01, 0x31, 0x10],
        [0x00, 0xc0, 0x00, 0x00, 0x05]]) (by decide)⟩

/-! ### Claim C9: DOL wrap-tag header -/

lemma natToBe_length (k n : Nat) : (natToBe k n).length = k := by
  induction k generalizing n with
  | zero => rfl
  | succ k ih => simp [natToBe, ih]

lemma natToBe_split (a b n : Nat) :
    natToBe (a + b) n = natToBe a (n / 256 ^ b) ++ natToBe b (n % 256 ^ b) := by
  induction b generalizing n with
  | zero => simp [natToBe]
  | succ b ih =>
    rw [show a + (b + 1) = (a + b) + 1 from rfl, natToBe, ih (n / 256)]
    have h1 : n / 256 / 256 ^ b = n / 256 ^ (b + 1) := by
      rw [Nat.div_div_eq_div_mul, pow_succ]
      ring_nf
    have h2 : n / 256 % 256 ^ b = n % 256 ^ (b + 1) / 256 := by
      rw [pow_succ, Nat.mul_comm (256 ^ b) 256, Nat.mod_mul_right_div_self]
    have h3 : n % 256 ^ (b + 1) % 256 = n % 256 := by
      apply Nat.mod_mod_of_dvd
      exact ⟨256 ^ b, by rw [pow_succ]; ring⟩
    rw [h1, h2]
    conv_rhs => rw [natToBe]
    rw [h3, List.append_assoc]

lemma bitsLenGo_eq_log2 (fuel n : Nat) (h0 : n ≠ 0) (hf : n < 2 ^ fuel) :
    bitsLenGo fuel n = n.log2 + 1 := by
  induction fuel generalizing n with
  | zero => omega
  | succ fuel ih =>
    rw [bitsLenGo, if_neg h0]
    by_cases h1 : n ≥ 2
    · have hd : n / 2 ≠ 0 := by omega
      have hlt : n / 2 < 2 ^ fuel := by
        have : 2 ^ (fuel + 1) = 2 * 2 ^ fuel := by rw [pow_succ]; ring
        omega
      rw [ih (n / 2) hd hlt]
      conv_rhs => rw [Nat.log2]
      rw [if_pos h1]
    · have hn1 : n = 1 := by omega
      subst hn1
      have hz : bitsLenGo fuel 0 = 0 := by cases fuel <;> rfl
      show bitsLenGo fuel 0 + 1 = _
      rw [hz]
      conv_rhs => rw [Nat.log2]
      norm_num

lemma bitsLen_eq_log2 (n : Nat) (h0 : n ≠ 0) : bitsLen n = n.log2 + 1 :=
  bitsLenGo_eq_log2 n n h0 (Nat.lt_two_pow n)

lemma modBytes_eq (n : Nat) (h0 : n ≠ 0) : modBytes n = n.log2 / 8 + 1 := by
  rw [modBytes, bitsLen_eq_log2 n h0]
  omega

lemma headerBytes_eq_minimal (t size : Nat) (h64 : size < 2 ^ 64)
    (hc : size ≤ 127 ∨ 256 ≤ size) :
    Dol.headerBytes t size = minimalTagLength t size := by
  unfold Dol.headerBytes minimalTagLength
  dsimp only
  congr 1
  · by_cases ht : 256 ≤ t
    · rw [if_pos ht, if_neg (by omega : ¬ (2 : Nat) = 1), if_pos ht]
    · rw [if_neg ht, if_pos rfl, if_neg ht, Nat.mod_eq_of_lt (by omega)]
  · rcases hc with hs | hs
    · rw [if_pos (by omega : size < 256), if_pos rfl, if_pos hs,
        Nat.mod_eq_of_lt (by omega)]
    · have h0 : size ≠ 0 := by omega
      have hL8 : 8 ≤ size.log2 := (Nat.le_log2 h0).2 (by omega)
      have hL63 : size.log2 < 64 := (Nat.log2_lt h0).2 h64
      have hm : modBytes size = size.log2 / 8 + 1 := modBytes_eq size h0
      rw [if_neg (by omega : ¬ size < 256), if_neg (by omega : ¬ size ≤ 127)]
      rw [if_neg (by omega : ¬ size.log2 / 8 + 2 = 1)]
      have hmb : size.log2 / 8 + 2 - 1 = modBytes size := by omega
      rw [hmb]
      have hor : (0x80 : Nat) ||| modBytes size = 0x80 + modBytes size := by
        have hlt : modBytes size < 2 ^ 7 := by omega
        have := Nat.mul_add_lt_is_or hlt 1
        norm_num at this
        omega
      rw [hor]
      congr 1
      have hmle : modBytes size ≤ 8 := by omega
      have hsz : size < 256 ^ modBytes size := by
        have h1 : size < 2 ^ (size.log2 + 1) := Nat.lt_log2_self
        have h2 : (256 : Nat) ^ modBytes size = 2 ^ (8 * modBytes size) := by
          rw [show (256 : Nat) = 2 ^ 8 from rfl, ← pow_mul]
        rw [h2]
        calc size < 2 ^ (size.log2 + 1) := h1
          _ ≤ 2 ^ (8 * modBytes size) := Nat.pow_le_pow_right (by omega) (by omega)
      have hsplit : natToBe 8 size =
          natToBe (8 - modBytes size) (size / 256 ^ modBytes size) ++
            natToBe (modBytes size) (size % 256 ^ modBytes size) := by
        conv_lhs => rw [show (8 : Nat) = (8 - modBytes size) + modBytes size by omega]
        exact natToBe_split _ _ _
      rw [hsplit, Nat.div_eq_of_lt hsz, Nat.mod_eq_of_lt hsz,
        show 9 - (size.log2 / 8 + 2) = 8 - modBytes size by omega]
      rw [List.drop_left' (natToBe_length _ _)]

/-- **C9** counterexample: a DOL totalling 200 bytes.  The wrap header emits the
single raw length byte `0xC8`, which is not the minimal BER-TLV length encoding
`81 C8` (a bare `0xC8` would denote a long-form length-of-length on decode). -/
theorem claimC9_counterexample :
    Dol.encode ⟨[⟨0x9f37, 200⟩]⟩ (some 0x83) [] ≠
      minimalTagLength 0x83 (Dol.size ⟨[⟨0x9f37, 200⟩]⟩) ++
        Dol.encode ⟨[⟨0x9f37, 200⟩]⟩ none [] := by
  decide

/-- **C9** (amended).  Encoding a DOL with a requested wrap tag prefixes the
no-tag payload with the header bytes for `(tag, total-size)`; that header is the
minimal BER-TLV tag/length encoding whenever the total size is at most 127 or at
least 256, but a size in 128..255 is emitted as one raw length byte. -/
theorem claimC9_dol_wrap (d : Dol) (state : OptionsMap) (t : Nat)
    (h64 : d.size < 2 ^ 64) :
    d.encode (some t) state = Dol.headerBytes t d.size ++ d.encode none state ∧
    (d.size ≤ 127 ∨ 256 ≤ d.size →
      Dol.headerBytes t d.size = minimalTagLength t d.size) := by
  constructor
  · simp [Dol.encode]
  · exact headerBytes_eq_minimal t d.size h64

/-- **C9** witness: a one-entry DOL of size 4, wrap tag 0x9F37. -/
theorem claimC9_witness :
    (Dol.size ⟨[⟨0x9f37, 4⟩]⟩ < 2 ^ 64) ∧
    (Dol.encode ⟨[⟨0x9f37, 4⟩]⟩ (some 0x9f37) [] =
        Dol.headerBytes 0x9f37 (Dol.size ⟨[⟨0x9f37, 4⟩]⟩) ++
          Dol.encode ⟨[⟨0x9f37, 4⟩]⟩ none [] ∧
      (Dol.size ⟨[⟨0x9f37, 4⟩]⟩ ≤ 127 ∨ 256 ≤ Dol.size ⟨[⟨0x9f37, 4⟩]⟩ →
        Dol.headerBytes 0x9f37 (Dol.size ⟨[⟨0x9f37, 4⟩]⟩) =
          minimalTagLength 0x9f37 (Dol.size ⟨[⟨0x9f37, 4⟩]⟩))) :=
  ⟨by decide, claimC9_dol_wrap ⟨[⟨0x9f37, 4⟩]⟩ [] 0x9f37 (by decide)⟩

/-! ### Claim C10: short responses in exchange -/

/-- **C10**.  A first response of fewer than two bytes makes `exchange` return
the error "Received message too short" with only the original frame transmitted
(no 0x6C reissue, no GET RESPONSE); but the same short response arriving as the
0x6C reissue answer or as a 0x61 continuation answer is indexed with no prior
length check and the program panics. -/
theorem claimC10_short_response :
    (∀ cmd frame d rest, ADPUCommand.encode cmd = some frame → d.length < 2 →
      exchange cmd (d :: rest) = (.err "Received message too short", [frame])) ∧
    (∀ cmd frame frame2 sw2 d2 rest, ADPUCommand.encode cmd = some frame →
      ADPUCommand.encode { cmd with ne := sw2 } = some frame2 → d2.length < 2 →
      exchange cmd ([0x6c, sw2] :: d2 :: rest) = (.panic, [frame, frame2])) ∧
    (∀ cmd frame sw2 d2 rest, ADPUCommand.encode cmd = some frame →
      d2.length < 2 →
      exchange cmd ([0x61, sw2] :: d2 :: rest) =
        (.panic, [frame, getResponseFrame sw2])) := by
  refine ⟨?_, ?_, ?_⟩
  · intro cmd frame d rest he hlen
    unfold exchange
    rw [he]
    dsimp only
    rw [if_pos hlen]
  · intro cmd frame frame2 sw2 d2 rest he he2 hlen
    unfold exchange
    rw [he]
    dsimp only
    rw [if_neg (by simp : ¬ ([0x6c, sw2] : List Nat).length < 2)]
    dsimp only [byteAt, List.getD]
    norm_num
    rw [he2]
    dsimp only
    rw [if_pos hlen]
  · intro cmd frame sw2 d2 rest he hlen
    unfold exchange
    rw [he]
    dsimp only
    rw [if_neg (by simp : ¬ ([0x61, sw2] : List Nat).length < 2)]
    dsimp only [byteAt, List.getD]
    norm_num
    unfold exchangeLoop
    rw [if_pos rfl, if_pos hlen]
    exact ⟨rfl, rfl⟩

/-- **C10** witness: SELECT with a one-byte first response. -/
theorem claimC10_witness :
    (ADPUCommand.encode ⟨0x00, 0xa4, 0x04, 0x00, [], 0⟩ = some [0x00, 0xa4, 0x04, 0x00] ∧
      ([0x90] : List Nat).length < 2) ∧
    exchange ⟨0x00, 0xa4, 0x04, 0x00, [], 0⟩ [[0x90]] =
      (.err "Received message too short", [[0x00, 0xa4, 0x04, 0x00]]) :=
  ⟨⟨by decide, by decide⟩,
    claimC10_short_response.1 ⟨0x00, 0xa4, 0x04, 0x00, [], 0⟩
      [0x00, 0xa4, 0x04, 0x00] [0x90] [] (by decide) (by decide)⟩

end Emvsign
